import Mathlib

/-!
# DynamO: ranges, hard-sphere / rotated-cube interactions and the cylinder wall

A shallow embedding of parts of the DynamO event-driven molecular dynamics
simulator:

* `dynamo/dynamics/ranges/2RIntraChains.hpp`  (`C2RIntraChains`)
* `dynamo/dynamics/interactions/hardsphere.cpp`  (`IHardSphere`)
* `dynamics/interactions/rotatedparallelcubes.cpp`  (`IRotatedParallelCubes`)
* `dynamics/locals/lcylinder.cpp`  (`CLCylinder`)
* `dynamics/ranges/1RSingle.cpp`  (`CRSingle`)
* `dynamics/species/dumbbell.cpp`  (`SpDumbbells`)

Conventions.

* `unsigned long` values are natural numbers below `ULONG_SIZE = 2 ^ 64`;
  every arithmetic operation that can wrap is written with an explicit
  reduction modulo `ULONG_SIZE`.
* `double` values are elements of an ordered field `K` (the rationals when a
  definition is evaluated, the reals where a square root is needed); the value
  `HUGE_VAL` is the top element of `WithTop K`.
* A C++ exception (`M_throw()`) is `Err.thrown`, undefined behaviour (integer
  division by zero) is `Err.undefined`; fallible code returns `Except Err _`.
  A division of doubles throws nothing.
* `SimData`, the liouvillean, the scheduler, the property store and the output
  plugins are not part of the embedded sources.  They appear as parameters
  (`SimOps`, `Property`, the root finder of `getEvent`), and every call into
  them is recorded in a call log so that the order of calls can be stated.
  The collaborators of `SimOps` return; the `runEvent` bodies are given a
  second time with output plugins whose `eventUpdate` may throw
  (`runEventThrowing`), and the two agree for plugins that return.
-/

namespace DynamO

/-! ## Machine integers and failures -/

/-- Number of values of the C++ type `unsigned long` (LP64: 64 bits). -/
def ULONG_SIZE : Nat := 2 ^ 64

/-- Largest `unsigned long`. -/
def ULONG_MAX : Nat := ULONG_SIZE - 1

/-- Unsigned subtraction `x - y`, wrapping modulo `2 ^ 64`. -/
def usub (x y : Nat) : Nat := (x + (ULONG_SIZE - y % ULONG_SIZE)) % ULONG_SIZE

/-- Unsigned addition `x + y`, wrapping modulo `2 ^ 64`. -/
def uadd (x y : Nat) : Nat := (x + y) % ULONG_SIZE

/-- Ways in which a C++ function fails to return. -/
inductive Err where
  /-- An exception raised by `M_throw()` (or by the XML reader). -/
  | thrown (msg : String)
  /-- Undefined behaviour: integer division or remainder by zero. -/
  | undefined
  deriving DecidableEq, Repr

deriving instance DecidableEq for Except

/-! ## XML nodes (the reader `magnet::xml::Node`, as far as the loaders use it) -/

/-- An XML element: its attributes in document order and its named children. -/
inductive Node where
  | mk (attributes : List (String × String)) (children : List (String × Node))

/-- Attributes of an element. -/
def Node.attributes : Node → List (String × String)
  | .mk a _ => a

/-- Children of an element. -/
def Node.children : Node → List (String × Node)
  | .mk _ c => c

/-- Modelled from the spec: `Node::getAttribute(name)` of the XML reader, which
is not among the embedded sources ("missing attribute" is a load failure): the
value of the first attribute of that name; the reader throws when there is
none. -/
def Node.getAttribute (XML : Node) (name : String) : Except Err String :=
  match XML.attributes.lookup name with
  | some v => .ok v
  | none => .error (.thrown "XML error: Attribute does not exist")

/-- Value of a decimal digit. -/
def digitVal (c : Char) : Option Nat :=
  if '0' ≤ c ∧ c ≤ '9' then some (c.toNat - '0'.toNat) else none

/-- Reads a run of decimal digits, most significant first. -/
def parseDigits : List Char → Nat → Option Nat
  | [], acc => some acc
  | c :: cs, acc =>
    match digitVal c with
    | some d => parseDigits cs (10 * acc + d)
    | none => none

/-- Modelled from the spec: `Attribute::as<unsigned long>()` of the XML reader,
which is not among the embedded sources ("malformed number" is a load
failure).  A non-empty decimal numeral that fits the type is its value;
anything else is a failed lexical cast. -/
def as_ulong (s : String) : Except Err Nat :=
  match s.data with
  | [] => .error (.thrown "bad lexical cast")
  | cs =>
    match parseDigits cs 0 with
    | some n => if n < ULONG_SIZE then .ok n else .error (.thrown "bad lexical cast")
    | none => .error (.thrown "bad lexical cast")

/-! ## `C2RIntraChains` -/

/-- The data members of `C2RIntraChains`. -/
structure C2RIntraChains where
  range1 : Nat
  range2 : Nat
  interval : Nat
  deriving DecidableEq, Repr

/-- The three members are values of `unsigned long`. -/
def C2RIntraChains.wf (c : C2RIntraChains) : Prop :=
  c.range1 < ULONG_SIZE ∧ c.range2 < ULONG_SIZE ∧ c.interval < ULONG_SIZE

instance (c : C2RIntraChains) : Decidable c.wf := by
  unfold C2RIntraChains.wf; infer_instance

/-- The message of the range check of both constructors. -/
def splitMsg : String := "Range of C2RIntraChains does not split evenly into interval"

/-- The test shared by both constructors, `if ((r2-r1 + 1) % r3) M_throw()`,
applied to members that are already stored. -/
def C2RIntraChains.checkSplit (c : C2RIntraChains) : Except Err C2RIntraChains :=
  if c.interval = 0 then .error .undefined
  else if uadd (usub c.range2 c.range1) 1 % c.interval ≠ 0 then
    .error (.thrown splitMsg)
  else .ok c

/-- `C2RIntraChains(unsigned long r1, unsigned long r2, unsigned long r3)`. -/
def C2RIntraChains.construct (r1 r2 r3 : Nat) : Except Err C2RIntraChains :=
  C2RIntraChains.checkSplit { range1 := r1, range2 := r2, interval := r3 }

/-- `C2RIntraChains(const magnet::xml::Node& XML, const dynamo::SimData*)`. -/
def C2RIntraChains.fromXML (XML : Node) : Except Err C2RIntraChains := do
  let range ← XML.getAttribute "Range"
  if range ≠ "IntraChains" then
    .error (.thrown "Attempting to load a chains from a non chains")
  else do
    let range1 ← XML.getAttribute "Start" >>= as_ulong
    let range2 ← XML.getAttribute "End" >>= as_ulong
    let interval ← XML.getAttribute "Interval" >>= as_ulong
    C2RIntraChains.checkSplit { range1 := range1, range2 := range2, interval := interval }

/-- `C2RIntraChains::isInRange(p1, p2)` on the two particle IDs.  The quotient
comparison comes first in the source, so the division is always evaluated. -/
def C2RIntraChains.isInRange (c : C2RIntraChains) (p1 p2 : Nat) : Except Err Bool :=
  if c.interval = 0 then .error .undefined
  else .ok ((usub p1 c.range1 / c.interval == usub p2 c.range1 / c.interval)
    && decide (p2 ≥ c.range1) && decide (p2 ≤ c.range2)
    && decide (p1 ≥ c.range1) && decide (p1 ≤ c.range2))

/-- `C2RIntraChains::outputXML`: the attributes written, in order. -/
def C2RIntraChains.outputXML (c : C2RIntraChains) : List (String × String) :=
  [("Range", "IntraChains"), ("Start", toString c.range1),
   ("End", toString c.range2), ("Interval", toString c.interval)]

/-! ## Vectors, matrices, particles, properties, events -/

/-- Number of spatial dimensions (`NDIM`). -/
def NDIM : Nat := 3

/-- A three-component `Vector` of doubles. -/
structure Vector (K : Type) where
  x : K
  y : K
  z : K
  deriving DecidableEq, Repr

/-- A `3 × 3` `Matrix` of doubles, row by row. -/
structure Matrix (K : Type) where
  xx : K
  xy : K
  xz : K
  yx : K
  yy : K
  yz : K
  zx : K
  zy : K
  zz : K
  deriving DecidableEq, Repr

section Algebra

variable {K : Type} [Field K]

/-- `a - b` on vectors. -/
def Vector.sub (a b : Vector K) : Vector K := ⟨a.x - b.x, a.y - b.y, a.z - b.z⟩

/-- The scalar product `a | b`. -/
def Vector.dot (a b : Vector K) : K := a.x * b.x + a.y * b.y + a.z * b.z

/-- `nrm2()`: the squared Euclidean length. -/
def Vector.nrm2 (a : Vector K) : K := a.dot a

/-- `nrm()`: the Euclidean length, for a given square-root function. -/
def Vector.nrm (sqrt : K → K) (a : Vector K) : K := sqrt a.nrm2

/-- `Matrix * Vector`. -/
def Matrix.mulVec (M : Matrix K) (v : Vector K) : Vector K :=
  ⟨M.xx * v.x + M.xy * v.y + M.xz * v.z,
   M.yx * v.x + M.yy * v.y + M.yz * v.z,
   M.zx * v.x + M.zy * v.y + M.zz * v.z⟩

/-- The transposed matrix. -/
def Matrix.transpose (M : Matrix K) : Matrix K :=
  ⟨M.xx, M.yx, M.zx, M.xy, M.yy, M.zy, M.xz, M.yz, M.zz⟩

/-- `Matrix * Matrix`. -/
def Matrix.mul (A B : Matrix K) : Matrix K :=
  ⟨A.xx * B.xx + A.xy * B.yx + A.xz * B.zx,
   A.xx * B.xy + A.xy * B.yy + A.xz * B.zy,
   A.xx * B.xz + A.xy * B.yz + A.xz * B.zz,
   A.yx * B.xx + A.yy * B.yx + A.yz * B.zx,
   A.yx * B.xy + A.yy * B.yy + A.yz * B.zy,
   A.yx * B.xz + A.yy * B.yz + A.yz * B.zz,
   A.zx * B.xx + A.zy * B.yx + A.zz * B.zx,
   A.zx * B.xy + A.zy * B.yy + A.zz * B.zy,
   A.zx * B.xz + A.zy * B.yz + A.zz * B.zz⟩

/-- The identity matrix. -/
def Matrix.identity : Matrix K := ⟨1, 0, 0, 0, 1, 0, 0, 0, 1⟩

/-- An orthonormal matrix: its columns are unit vectors orthogonal to each
other, `Mᵀ M = 1`. -/
def Matrix.Orthonormal (M : Matrix K) : Prop := M.transpose.mul M = Matrix.identity

end Algebra

/-- A particle: its ID and its synchronised position and velocity. -/
structure Particle (K : Type) where
  ID : Nat
  position : Vector K
  velocity : Vector K
  deriving DecidableEq, Repr

/-- A property of the property store (`Property`), whose class is not among
the embedded sources: `getProperty(ID)` is defined on the IDs of the property's
domain, `getMaxValue()` is what the store reports as the largest value. -/
structure Property (K : Type) where
  getName : String
  getProperty : Nat → Option K
  getMaxValue : K

/-- `prop->getProperty(ID)` as a call that fails outside the property's domain. -/
def Property.get {K : Type} (prop : Property K) (ID : Nat) : Except Err K :=
  match prop.getProperty ID with
  | some v => .ok v
  | none => .error .undefined

/-- The event kinds named by the specification (`EEventType`). -/
inductive EEventType where
  | NONE
  | CELL
  | CORE
  | WALL
  | VIRTUAL
  deriving DecidableEq, Repr

/-- The time `HUGE_VAL`, "no event". -/
def HUGE_VAL {K : Type} : WithTop K := ⊤

/-- `IntEvent(p1, p2, dt, type, interaction)`. -/
structure IntEvent (K : Type) where
  particle1ID : Nat
  particle2ID : Nat
  dt : WithTop K
  CType : EEventType
  intID : Nat

/-- `LocalEvent(part, dt, type, local)`. -/
structure LocalEvent (K : Type) where
  particleID : Nat
  dt : WithTop K
  CType : EEventType
  localID : Nat

/-- The triggering event handed to an output plugin (`eventUpdate` is overloaded
on the event class). -/
inductive Event (K : Type) where
  | int (e : IntEvent K)
  | loc (e : LocalEvent K)

/-- `CPDData`, the pair data handed to the root finders: relative position
and velocity, their scalar products, and the time found. -/
structure CPDData (K : Type) where
  rij : Vector K
  vij : Vector K
  rvdot : K
  r2 : K
  v2 : K
  dt : WithTop K

/-! ## The simulation data and its collaborators -/

/-- One step of a `runEvent`, as seen from outside: the increment of the event
counter and each call into a collaborator, with its arguments.  `D` is the type
of event-data records (`PairEventData`, `NEventData`). -/
inductive Step (K D : Type) where
  | countIncremented
  | resolved (EDat : D)
  | signalParticleUpdate (EDat : D)
  | fullUpdate (IDs : List Nat)
  | eventUpdate (plugin : Nat) (ev : Event K) (EDat : D)

/-- The collaborators reached through `Sim`, none of which is among the embedded
sources.  Each acts on the part `σ` of the simulation that it owns (particles,
scheduler queue, plugin accumulators); the resolvers also return the event data. -/
structure SimOps (σ K D : Type) where
  SphereSphereInRoot : σ → Particle K → Particle K → K → WithTop K
  applyBC : σ → Vector K × Vector K → Vector K × Vector K
  applyBCPos : σ → Vector K → Vector K
  getCylinderWallCollision : σ → Particle K → Vector K → Vector K → K → WithTop K
  CubeCubeInRoot : σ → CPDData K → K → Bool × CPDData K
  SmoothSpheresColl : σ → IntEvent K → K → K → D × σ
  parallelCubeColl : σ → IntEvent K → K → K → Matrix K → D × σ
  runCylinderWallCollision : σ → Particle K → Vector K → Vector K → K → D × σ
  signalParticleUpdate : σ → D → σ
  fullUpdate : σ → List Nat → σ
  eventUpdate : Nat → σ → Event K → D → σ

/-- `SimData` as far as `runEvent` touches it: the global event counter (an
unbounded natural number: the declaration of the counter is not among the
embedded sources), the list of output plugins, the state owned by the
collaborators, and the log of steps taken so far. -/
structure SimData (σ K D : Type) where
  eventCount : Nat
  outputPlugins : List Nat
  world : σ
  log : List (Step K D)

section Sim

variable {σ K D : Type}

/-- `++Sim->eventCount`. -/
def SimData.incEventCount (Sim : SimData σ K D) : SimData σ K D :=
  { Sim with eventCount := Sim.eventCount + 1, log := Sim.log ++ [.countIncremented] }

/-- Takes over the result of a liouvillean resolver: `EDat` and the new state. -/
def SimData.resolved (Sim : SimData σ K D) (r : D × σ) : SimData σ K D :=
  { Sim with world := r.2, log := Sim.log ++ [.resolved r.1] }

/-- `Sim->signalParticleUpdate(EDat)`. -/
def SimData.signalParticleUpdate (ops : SimOps σ K D) (Sim : SimData σ K D) (EDat : D) :
    SimData σ K D :=
  { Sim with world := ops.signalParticleUpdate Sim.world EDat,
             log := Sim.log ++ [.signalParticleUpdate EDat] }

/-- `Sim->ptrScheduler->fullUpdate(...)`. -/
def SimData.fullUpdate (ops : SimOps σ K D) (Sim : SimData σ K D) (IDs : List Nat) :
    SimData σ K D :=
  { Sim with world := ops.fullUpdate Sim.world IDs, log := Sim.log ++ [.fullUpdate IDs] }

/-- `Ptr->eventUpdate(iEvent, EDat)` for one plugin. -/
def SimData.eventUpdate (ops : SimOps σ K D) (ev : Event K) (EDat : D)
    (Sim : SimData σ K D) (Ptr : Nat) : SimData σ K D :=
  { Sim with world := ops.eventUpdate Ptr Sim.world ev EDat,
             log := Sim.log ++ [.eventUpdate Ptr ev EDat] }

/-- `BOOST_FOREACH(Ptr, Sim->outputPlugins) Ptr->eventUpdate(iEvent, EDat);` -/
def SimData.forEachPlugin (ops : SimOps σ K D) (Sim : SimData σ K D) (ev : Event K)
    (EDat : D) : SimData σ K D :=
  Sim.outputPlugins.foldl (SimData.eventUpdate ops ev EDat) Sim

end Sim

/-! ## `IHardSphere` -/

/-- The data members of `IHardSphere`. -/
structure IHardSphere (K : Type) where
  _diameter : Property K
  _e : Property K
  intName : String
  ID : Nat

section HardSphere

variable {σ K D : Type} [Field K] [DecidableEq K]

/-- `IHardSphere::maxIntDist()`. -/
def IHardSphere.maxIntDist (self : IHardSphere K) : K := self._diameter.getMaxValue

/-- The pair diameter `(d(p1) + d(p2)) * 0.5` computed by `getEvent`,
`runEvent` and `checkOverlaps`. -/
def IHardSphere.pairDiameter (self : IHardSphere K) (ID1 ID2 : Nat) : Except Err K := do
  let d1 ← self._diameter.get ID1
  let d2 ← self._diameter.get ID2
  pure ((d1 + d2) * 0.5)

/-- `IHardSphere::getEvent(p1, p2)`; the blocks under `DYNAMO_DEBUG` and
`DYNAMO_OverlapTesting` are not compiled. -/
def IHardSphere.getEvent (ops : SimOps σ K D) (self : IHardSphere K) (Sim : SimData σ K D)
    (p1 p2 : Particle K) : Except Err (IntEvent K) := do
  let d ← self.pairDiameter p1.ID p2.ID
  let dt := ops.SphereSphereInRoot Sim.world p1 p2 d
  if dt ≠ HUGE_VAL then
    pure ⟨p1.ID, p2.ID, dt, .CORE, self.ID⟩
  else
    pure ⟨p1.ID, p2.ID, HUGE_VAL, .NONE, self.ID⟩

/-- `IHardSphere::runEvent(p1, p2, iEvent)`. -/
def IHardSphere.runEvent (ops : SimOps σ K D) (self : IHardSphere K) (Sim : SimData σ K D)
    (p1 p2 : Particle K) (iEvent : IntEvent K) : Except Err (SimData σ K D) := do
  let Sim := Sim.incEventCount
  let d ← self.pairDiameter p1.ID p2.ID
  let d2 := d * d
  let e1 ← self._e.get p1.ID
  let e2 ← self._e.get p2.ID
  let e := (e1 + e2) * 0.5
  let r := ops.SmoothSpheresColl Sim.world iEvent e d2
  let EDat := r.1
  let Sim := Sim.resolved r
  let Sim := Sim.signalParticleUpdate ops EDat
  let Sim := Sim.fullUpdate ops [p1.ID, p2.ID]
  pure (Sim.forEachPlugin ops (.int iEvent) EDat)

end HardSphere

/-- Modelled from the spec: `sphereSphereInRoot(p, q, d)` of the liouvillean,
which is not among the embedded sources.  In the pair frame (relative position
`rij`, relative velocity `vij`) the pair approaches when `rij | vij < 0`; the
centres come within distance `d` at the smaller root of
`|rij + t vij|^2 = d^2` when that root is real, and the result is `HUGE_VAL`
otherwise. -/
def sphereSphereInRoot {K : Type} [LinearOrderedField K] (sqrt : K → K)
    (p1 p2 : Particle K) (d : K) : WithTop K :=
  let rij := p1.position.sub p2.position
  let vij := p1.velocity.sub p2.velocity
  let b := rij.dot vij
  let arg := b * b - vij.nrm2 * (rij.nrm2 - d * d)
  if b < 0 ∧ 0 < arg then (((-b - sqrt arg) / vij.nrm2 : K) : WithTop K) else HUGE_VAL

/-! ## `IRotatedParallelCubes` -/

/-- The data members of `IRotatedParallelCubes`. -/
structure IRotatedParallelCubes (K : Type) where
  Rotation : Matrix K
  diameter : K
  e : K
  intName : String
  ID : Nat

section Cubes

variable {σ K D : Type} [Field K]

/-- `IRotatedParallelCubes::maxIntDist()`, `std::sqrt(NDIM) * diameter`, for a
given square-root function. -/
def IRotatedParallelCubes.maxIntDist (sqrt : K → K) (self : IRotatedParallelCubes K) : K :=
  sqrt (NDIM : K) * self.diameter

/-- `IRotatedParallelCubes::hardCoreDiam()`. -/
def IRotatedParallelCubes.hardCoreDiam (self : IRotatedParallelCubes K) : K := self.diameter

/-- Modelled from the spec: the constructor `CPDData(Sim, p1, p2)`, which is
not among the embedded sources ("all predicates first transform into the pair
frame (relative position and velocity)"): the relative position and velocity
of the pair, wrapped by the boundary condition, with their scalar products;
no time found yet. -/
def CPDData.ofPair (ops : SimOps σ K D) (Sim : SimData σ K D) (p1 p2 : Particle K) :
    CPDData K :=
  let rv := ops.applyBC Sim.world (p1.position.sub p2.position, p1.velocity.sub p2.velocity)
  { rij := rv.1, vij := rv.2, rvdot := rv.1.dot rv.2, r2 := rv.1.nrm2, v2 := rv.2.nrm2,
    dt := HUGE_VAL }

/-- `IRotatedParallelCubes::getEvent(p1, p2)`; the blocks under `DYNAMO_DEBUG`
and `DYNAMO_OverlapTesting` are not compiled.  `CubeCubeInRoot` returns its
verdict and the pair data with the time it found. -/
def IRotatedParallelCubes.getEvent (ops : SimOps σ K D) (self : IRotatedParallelCubes K)
    (Sim : SimData σ K D) (p1 p2 : Particle K) : IntEvent K :=
  let colldat := CPDData.ofPair ops Sim p1 p2
  let colldat := { colldat with rij := self.Rotation.mulVec colldat.rij }
  let colldat := { colldat with vij := self.Rotation.mulVec colldat.vij }
  let found := ops.CubeCubeInRoot Sim.world colldat self.diameter
  if found.1 then
    ⟨p1.ID, p2.ID, found.2.dt, .CORE, self.ID⟩
  else
    ⟨p1.ID, p2.ID, HUGE_VAL, .NONE, self.ID⟩

/-- `IRotatedParallelCubes::runEvent(p1, p2, iEvent)`. -/
def IRotatedParallelCubes.runEvent (ops : SimOps σ K D) (self : IRotatedParallelCubes K)
    (Sim : SimData σ K D) (p1 p2 : Particle K) (iEvent : IntEvent K) : SimData σ K D :=
  let Sim := Sim.incEventCount
  let r := ops.parallelCubeColl Sim.world iEvent self.e self.diameter self.Rotation
  let EDat := r.1
  let Sim := Sim.resolved r
  let Sim := Sim.signalParticleUpdate ops EDat
  let Sim := Sim.fullUpdate ops [p1.ID, p2.ID]
  Sim.forEachPlugin ops (.int iEvent) EDat

end Cubes

/-! ## `CLCylinder` -/

/-- The data members of `CLCylinder`. -/
structure CLCylinder (K : Type) where
  vNorm : Vector K
  vPosition : Vector K
  e : K
  radius : K
  render : Bool
  localName : String
  ID : Nat

section Cylinder

variable {σ K D : Type}

/-- `CLCylinder::runEvent(part, iEvent)`. -/
def CLCylinder.runEvent (ops : SimOps σ K D) (self : CLCylinder K) (Sim : SimData σ K D)
    (part : Particle K) (iEvent : LocalEvent K) : SimData σ K D :=
  let Sim := Sim.incEventCount
  let r := ops.runCylinderWallCollision Sim.world part self.vPosition self.vNorm self.e
  let EDat := r.1
  let Sim := Sim.resolved r
  let Sim := Sim.signalParticleUpdate ops EDat
  let Sim := Sim.fullUpdate ops [part.ID]
  Sim.forEachPlugin ops (.loc iEvent) EDat

/-- `CLCylinder::isInCell(Origin, CellDim)`: `return true;` (the overlap test
that follows it in the source is commented out). -/
def CLCylinder.isInCell (_self : CLCylinder K) (_Origin _CellDim : Vector K) : Bool := true

end Cylinder

/-! ## The order of steps of the driver contract -/

/-- The position of a step in the driver contract of the specification:
resolve (3), fan out to the observers (4), `fullUpdate` (5), increment the event
counter (6).  `signalParticleUpdate` is not a step of that list. -/
def Step.specPhase {K D : Type} : Step K D → Option Nat
  | .resolved _ => some 3
  | .eventUpdate _ _ _ => some 4
  | .fullUpdate _ => some 5
  | .countIncremented => some 6
  | .signalParticleUpdate _ => none

/-- A log whose steps come in the order of the driver contract. -/
def followsDriverContract {K D : Type} (log : List (Step K D)) : Prop :=
  (log.filterMap Step.specPhase).Pairwise (· ≤ ·)

instance {K D : Type} (log : List (Step K D)) : Decidable (followsDriverContract log) := by
  unfold followsDriverContract; infer_instance

/-- The `eventUpdate` calls of a log, in order. -/
def eventUpdates {K D : Type} (log : List (Step K D)) : List (Nat × Event K × D) :=
  log.filterMap fun s =>
    match s with
    | .eventUpdate Ptr ev EDat => some (Ptr, ev, EDat)
    | _ => none

/-- The value of an attribute. -/
inductive Value (K : Type) where
  | text (s : String)
  | num (x : K)
  deriving DecidableEq, Repr

/-- An element: its attributes in document order and its named children. -/
inductive XMLNode (K : Type) where
  | mk (attributes : List (String × Value K)) (children : List (String × XMLNode K))

/-- Attributes of an element. -/
def XMLNode.attributes {K : Type} : XMLNode K → List (String × Value K)
  | .mk a _ => a

/-- Children of an element. -/
def XMLNode.children {K : Type} : XMLNode K → List (String × XMLNode K)
  | .mk _ c => c

/-- Modelled from the spec: `XMLNode::getAttribute(name)`, the first attribute
of that name, or a null pointer (`none`) when the element has none. -/
def XMLNode.getAttribute {K : Type} (XML : XMLNode K) (name : String) : Option (Value K) :=
  XML.attributes.lookup name

/-- Modelled from the spec: `XMLNode::getChildNode(name)`, the first child of
that name, or an empty element when there is none. -/
def XMLNode.getChildNode {K : Type} (XML : XMLNode K) (name : String) : XMLNode K :=
  match XML.children.lookup name with
  | some c => c
  | none => .mk [] []

/-- The exception `boost::bad_lexical_cast`. -/
def bad_lexical_cast : Err := .thrown "bad lexical cast"

/-- `catch (boost::bad_lexical_cast &) { M_throw() << msg; }` around a call:
a failed lexical cast is replaced by the exception with message `msg`, every
other failure passes. -/
def catchBadCast {α : Type} (msg : String) (r : Except Err α) : Except Err α :=
  match r with
  | .ok v => .ok v
  | .error e => if e = bad_lexical_cast then .error (.thrown msg) else .error e

/-- `strcmp(XML.getAttribute(name), expected) == 0`; a null pointer has no
defined comparison, a number is never the expected word. -/
def attrIs {K : Type} (a : Option (Value K)) (expected : String) : Except Err Bool :=
  match a with
  | none => .error .undefined
  | some (.text s) => .ok (s == expected)
  | some (.num _) => .ok false

/-- Modelled from the spec: `boost::lexical_cast<double>(attribute)`. -/
def lexical_cast_double {K : Type} (a : Option (Value K)) : Except Err K :=
  match a with
  | none => .error .undefined
  | some (.num x) => .ok x
  | some (.text _) => .error bad_lexical_cast

/-- Modelled from the spec: `boost::lexical_cast<unsigned long>(attribute)`,
a decimal numeral that fits the type. -/
def lexical_cast_ulong {K : Type} (a : Option (Value K)) : Except Err Nat :=
  match a with
  | none => .error .undefined
  | some (.text s) => as_ulong s
  | some (.num _) => .error bad_lexical_cast

/-- Modelled from the spec: `boost::lexical_cast<bool>(attribute)`, which
accepts `"1"` and `"0"` only. -/
def lexical_cast_bool {K : Type} (a : Option (Value K)) : Except Err Bool :=
  match a with
  | none => .error .undefined
  | some (.text s) =>
    if s = "1" then .ok true else if s = "0" then .ok false else .error bad_lexical_cast
  | some (.num _) => .error bad_lexical_cast

/-- The text of an attribute that is assigned to a `std::string`. -/
def attrText {K : Type} (a : Option (Value K)) : Except Err String :=
  match a with
  | some (.text s) => .ok s
  | _ => .error .undefined

/-- `XmlStream << bool`. -/
def boolText (b : Bool) : String := if b then "1" else "0"

/-- Modelled from the spec: `XML << Vector` (`vector.xml.hpp`), the attributes
`x`, `y`, `z` of the open element. -/
def Vector.toXML {K : Type} (v : Vector K) : XMLNode K :=
  .mk [("x", .num v.x), ("y", .num v.y), ("z", .num v.z)] []

/-- Modelled from the spec: `Vector << XMLNode` (`vector.xml.hpp`). -/
def Vector.ofXML {K : Type} (XML : XMLNode K) : Except Err (Vector K) := do
  let x ← lexical_cast_double (XML.getAttribute "x")
  let y ← lexical_cast_double (XML.getAttribute "y")
  let z ← lexical_cast_double (XML.getAttribute "z")
  pure ⟨x, y, z⟩

/-- Modelled from the spec: `XML << Matrix` (`vector.xml.hpp`), the attributes
`xx` to `zz` of the open element. -/
def Matrix.toXML {K : Type} (M : Matrix K) : XMLNode K :=
  .mk [("xx", .num M.xx), ("xy", .num M.xy), ("xz", .num M.xz),
       ("yx", .num M.yx), ("yy", .num M.yy), ("yz", .num M.yz),
       ("zx", .num M.zx), ("zy", .num M.zy), ("zz", .num M.zz)] []

/-- Modelled from the spec: `Matrix << XMLNode` (`vector.xml.hpp`). -/
def Matrix.ofXML {K : Type} (XML : XMLNode K) : Except Err (Matrix K) := do
  let xx ← lexical_cast_double (XML.getAttribute "xx")
  let xy ← lexical_cast_double (XML.getAttribute "xy")
  let xz ← lexical_cast_double (XML.getAttribute "xz")
  let yx ← lexical_cast_double (XML.getAttribute "yx")
  let yy ← lexical_cast_double (XML.getAttribute "yy")
  let yz ← lexical_cast_double (XML.getAttribute "yz")
  let zx ← lexical_cast_double (XML.getAttribute "zx")
  let zy ← lexical_cast_double (XML.getAttribute "zy")
  let zz ← lexical_cast_double (XML.getAttribute "zz")
  pure ⟨xx, xy, xz, yx, yy, yz, zx, zy, zz⟩

/-! ## Member functions that assign to their object -/

/-- Outcome of a member function that assigns to the members of its object:
the members when the call ends and, when it did not return, the failure. -/
structure Assigned (α : Type) where
  obj : α
  failure : Option Err

/-- The next statement runs when the statements before it have returned. -/
def Assigned.andThen {α : Type} (a : Assigned α) (next : α → Assigned α) : Assigned α :=
  match a.failure with
  | none => next a.obj
  | some _ => a

/-- The statement `member = value;`: when the value cannot be computed nothing
is assigned. -/
def assign {α β : Type} (value : Except Err β) (set : α → β → α) (self : α) : Assigned α :=
  match value with
  | .ok v => ⟨set self v, none⟩
  | .error e => ⟨self, some e⟩

/-- The statement `if (differs) M_throw() << msg;` on a comparison. -/
def throwUnless {α : Type} (same : Except Err Bool) (msg : String) (self : α) : Assigned α :=
  match same with
  | .ok true => ⟨self, none⟩
  | .ok false => ⟨self, some (.thrown msg)⟩
  | .error e => ⟨self, some e⟩

/-- An object of a class derived from `Local` or `Interaction`: the member
`range` of the base class, which points to a range object, next to the other
members. -/
structure WithRange (R α : Type) where
  range : R
  members : α

/-- The range classes behind the pointer `range` and their factory
(`CRange::loadClass`, `C2Range::loadClass`), which are not among the embedded
sources: what `XML << range` adds to the open element, and the range that the
factory builds from an element. -/
structure RangeOps (R K : Type) where
  outputXML : R → List (String × Value K)
  loadClass : XMLNode K → Except Err R

/-! ## `CRSingle` -/

/-- The data member of `CRSingle`. -/
structure CRSingle where
  ID : Nat
  deriving DecidableEq, Repr

/-- `CRSingle::isInRange(part)`. -/
def CRSingle.isInRange {K : Type} (self : CRSingle) (part : Particle K) : Bool :=
  if part.ID = self.ID then true else false

/-- `CRSingle::operator<<(XML)`. -/
def CRSingle.load {K : Type} (self : CRSingle) (XML : XMLNode K) : Assigned CRSingle :=
  (throwUnless (attrIs (XML.getAttribute "Range") "Single")
      "Attempting to load CRSingle from non single" self).andThen
    (assign (catchBadCast "Failed a lexical cast in CRRange"
        (lexical_cast_ulong (XML.getAttribute "ID")))
      (fun _ v => { ID := v }))

/-- The constructor `CRSingle(XML)`: `operator<<(XML)` on a fresh object (`ID`
not yet set, here `0`); the range exists when the call returns. -/
def CRSingle.fromXML {K : Type} (XML : XMLNode K) : Except Err CRSingle :=
  match (CRSingle.load { ID := 0 } XML).failure with
  | none => .ok (CRSingle.load { ID := 0 } XML).obj
  | some e => .error e

/-- `CRSingle::outputXML`: the attributes written, in order. -/
def CRSingle.outputXML {K : Type} (self : CRSingle) : List (String × Value K) :=
  [("Range", .text "Single"), ("ID", .text (toString self.ID))]

/-! ## Loading and writing `CLCylinder` -/

section CylinderXML

variable {R K : Type} [Field K] [DecidableEq K]

/-- `v * a` (and `v *= a`) for a vector and a scalar. -/
def Vector.scale (v : Vector K) (a : K) : Vector K := ⟨v.x * a, v.y * a, v.z * a⟩

/-- `v / a` (and `v /= a`) for a vector and a scalar. -/
def Vector.divide (v : Vector K) (a : K) : Vector K := ⟨v.x / a, v.y / a, v.z / a⟩

/-- The statement `vNorm /= vNorm.nrm();`.  The division throws nothing, so
the statements after it run whatever the length is.  For a zero length the
doubles of the code become not-a-number; the field has no such value, and the
components stored here for that input are the field's quotients by zero. -/
def CLCylinder.normalise (sqrt : K → K) (self : WithRange R (CLCylinder K)) :
    Assigned (WithRange R (CLCylinder K)) :=
  ⟨{ self with members := { self.members with
      vNorm := self.members.vNorm.divide (self.members.vNorm.nrm sqrt) } }, none⟩

/-- The message of the `catch` block of `CLCylinder::operator<<`. -/
def cylinderCastMsg : String := "Failed a lexical cast in CLCylinder"

/-- `CLCylinder::operator<<(XML)`, for the unit length `unitLength` of the
simulation.  The statements run in the order of the source; the element's
`Type` attribute is not read. -/
def CLCylinder.load (unitLength : K) (sqrt : K → K) (rops : RangeOps R K)
    (self : WithRange R (CLCylinder K)) (XML : XMLNode K) :
    Assigned (WithRange R (CLCylinder K)) :=
  (assign (rops.loadClass XML) (fun w r => { w with range := r }) self).andThen fun w =>
  (assign (catchBadCast cylinderCastMsg (lexical_cast_double (XML.getAttribute "Elasticity")))
    (fun w v => { w with members := { w.members with e := v } }) w).andThen fun w =>
  (assign (catchBadCast cylinderCastMsg (lexical_cast_double (XML.getAttribute "Radius")))
    (fun w v => { w with members := { w.members with radius := v * unitLength } })
    w).andThen fun w =>
  (assign (catchBadCast cylinderCastMsg (lexical_cast_bool (XML.getAttribute "Render")))
    (fun w v => { w with members := { w.members with render := v } }) w).andThen fun w =>
  (assign (attrText (XML.getAttribute "Name"))
    (fun w v => { w with members := { w.members with localName := v } }) w).andThen fun w =>
  (assign (catchBadCast cylinderCastMsg (Vector.ofXML (XML.getChildNode "Norm")))
    (fun w v => { w with members := { w.members with vNorm := v } }) w).andThen fun w =>
  (CLCylinder.normalise sqrt w).andThen fun w =>
  assign (catchBadCast cylinderCastMsg (Vector.ofXML (XML.getChildNode "Origin")))
    (fun w v => { w with members := { w.members with vPosition := v.scale unitLength } }) w

/-- The constructor `CLCylinder(XML, Sim)`: `operator<<(XML)` on the members as
the base constructor left them (`init`); the wall exists when the call returns. -/
def CLCylinder.fromXML (unitLength : K) (sqrt : K → K) (rops : RangeOps R K)
    (init : WithRange R (CLCylinder K)) (XML : XMLNode K) :
    Except Err (WithRange R (CLCylinder K)) :=
  match (CLCylinder.load unitLength sqrt rops init XML).failure with
  | none => .ok (CLCylinder.load unitLength sqrt rops init XML).obj
  | some e => .error e

/-- `CLCylinder::outputXML`: the element written. -/
def CLCylinder.outputXML (unitLength : K) (rops : RangeOps R K)
    (self : WithRange R (CLCylinder K)) : XMLNode K :=
  .mk ([("Type", .text "CylinderWall"),
        ("Name", .text self.members.localName),
        ("Elasticity", .num self.members.e),
        ("Radius", .num (self.members.radius / unitLength)),
        ("Render", .text (boolText self.members.render))]
       ++ rops.outputXML self.range)
      [("Norm", self.members.vNorm.toXML),
       ("Origin", (self.members.vPosition.divide unitLength).toXML)]

end CylinderXML

/-! ## Loading and writing `IRotatedParallelCubes` -/

section CubesXML

variable {R K : Type} [Field K]

/-- The message of the `catch` block of `IRotatedParallelCubes::operator<<`. -/
def cubesCastMsg : String := "Failed a lexical cast in CIRotatedParallelCubes"

/-- `IRotatedParallelCubes::operator<<(XML)`. -/
def IRotatedParallelCubes.load (unitLength : K) (rops : RangeOps R K)
    (self : WithRange R (IRotatedParallelCubes K)) (XML : XMLNode K) :
    Assigned (WithRange R (IRotatedParallelCubes K)) :=
  (throwUnless (attrIs (XML.getAttribute "Type") "RotatedParallelCubes")
    ("Attempting to load RotatedParallelCubes from "
      ++ (attrText (XML.getAttribute "Type")).toOption.getD "" ++ " entry") self).andThen fun w =>
  (assign (rops.loadClass XML) (fun w r => { w with range := r }) w).andThen fun w =>
  (assign (catchBadCast cubesCastMsg (lexical_cast_double (XML.getAttribute "Diameter")))
    (fun w v => { w with members := { w.members with diameter := unitLength * v } })
    w).andThen fun w =>
  (assign (catchBadCast cubesCastMsg (lexical_cast_double (XML.getAttribute "Elasticity")))
    (fun w v => { w with members := { w.members with e := v } }) w).andThen fun w =>
  (assign (attrText (XML.getAttribute "Name"))
    (fun w v => { w with members := { w.members with intName := v } }) w).andThen fun w =>
  assign (catchBadCast cubesCastMsg (Matrix.ofXML (XML.getChildNode "Rotation")))
    (fun w v => { w with members := { w.members with Rotation := v } }) w

/-- `IRotatedParallelCubes::outputXML`: the element written. -/
def IRotatedParallelCubes.outputXML (unitLength : K) (rops : RangeOps R K)
    (self : WithRange R (IRotatedParallelCubes K)) : XMLNode K :=
  .mk ([("Type", .text "RotatedParallelCubes"),
        ("Diameter", .num (self.members.diameter / unitLength)),
        ("Elasticity", .num self.members.e),
        ("Name", .text self.members.intName)]
       ++ rops.outputXML self.range)
      [("Rotation", self.members.Rotation.toXML)]

end CubesXML

/-! ## Loading `IHardSphere` -/

/-- What `IHardSphere::operator<<` calls outside the embedded sources:
`Interaction::operator<<(XML)`, which loads the range, and the lookup
`Sim->_properties.getProperty(name, units)` of the property store. -/
structure HardSphereLoadOps (R K : Type) where
  loadRange : Node → Except Err R
  getProperty : String → Except Err (Property K)

/-- The message of the `catch` block of `IHardSphere::operator<<`. -/
def hardSphereCastMsg : String := "Failed a lexical cast in CIHardSphere"

/-- `IHardSphere::operator<<(XML)`. -/
def IHardSphere.load {R K : Type} (lops : HardSphereLoadOps R K)
    (self : WithRange R (IHardSphere K)) (XML : Node) : Assigned (WithRange R (IHardSphere K)) :=
  (throwUnless ((XML.getAttribute "Type").map (fun t => t == "HardSphere"))
    "Attempting to load Hardsphere from non hardsphere entry" self).andThen fun w =>
  (assign (lops.loadRange XML) (fun w r => { w with range := r }) w).andThen fun w =>
  (assign (catchBadCast hardSphereCastMsg (XML.getAttribute "Diameter" >>= lops.getProperty))
    (fun w v => { w with members := { w.members with _diameter := v } }) w).andThen fun w =>
  (assign (catchBadCast hardSphereCastMsg (XML.getAttribute "Elasticity" >>= lops.getProperty))
    (fun w v => { w with members := { w.members with _e := v } }) w).andThen fun w =>
  assign (catchBadCast hardSphereCastMsg (XML.getAttribute "Name"))
    (fun w v => { w with members := { w.members with intName := v } }) w

/-! ## `SpDumbbells`: the colour buffer -/

/-- `sizeof(cl_uchar4)`. -/
def sizeof_cl_uchar4 : Nat := 4

/-- Unsigned multiplication of two `size_t`, wrapping modulo `2 ^ 64`. -/
def umul (x y : Nat) : Nat := (x * y) % ULONG_SIZE

/-- A call `enqueueWriteBuffer(buffer, blocking, offset, size, ptr)`: the byte
offset into the device buffer and the number of bytes written. -/
structure BufferWrite where
  offset : Nat
  size : Nat
  deriving DecidableEq, Repr

/-- Modelled from the spec: the size in bytes of the colour buffer of the
renderer (`SphereParticleRenderer`, not among the embedded sources) that
`SpDumbbells::getCoilRenderObj` creates for `2 * range->size()` spheres, one
`cl_uchar4` per sphere. -/
def SpDumbbells.colorBufferBytes (rangeSize : Nat) : Nat :=
  umul (umul 2 rangeSize) sizeof_cl_uchar4

/-- The write that `SpDumbbells::updateColorObj` enqueues after
`SpPoint::updateColorObj`, for a species of `range->size() = rangeSize`
particles: offset `2*range->size() * sizeof(cl_uchar4)`, size
`range->size() * sizeof(cl_uchar4)`. -/
def SpDumbbells.updateColorObj (rangeSize : Nat) : BufferWrite :=
  { offset := umul (umul 2 rangeSize) sizeof_cl_uchar4,
    size := umul rangeSize sizeof_cl_uchar4 }

/-- A write stays inside a buffer of `bytes` bytes. -/
def BufferWrite.inBounds (w : BufferWrite) (bytes : Nat) : Prop := w.offset + w.size ≤ bytes

instance (w : BufferWrite) (bytes : Nat) : Decidable (w.inBounds bytes) := by
  unfold BufferWrite.inBounds; infer_instance

/-! ## `checkOverlaps` and `CLCylinder::getEvent` -/

/-- The diagnostic that `checkOverlaps` writes to the error stream: the two
IDs, `R_ij^2` and `d^2`, both in units of the squared unit length. -/
structure OverlapReport (K : Type) where
  ID1 : Nat
  ID2 : Nat
  Rij2 : K
  d2 : K

section Overlaps

variable {σ K D : Type} [LinearOrderedField K]

/-- `IHardSphere::checkOverlaps(part1, part2)`: the diagnostic written, if any. -/
def IHardSphere.checkOverlaps (unitLength : K) (ops : SimOps σ K D) (self : IHardSphere K)
    (Sim : SimData σ K D) (part1 part2 : Particle K) : Except Err (Option (OverlapReport K)) := do
  let rij := ops.applyBCPos Sim.world (part1.position.sub part2.position)
  let d ← self.pairDiameter part1.ID part2.ID
  let d2 := d * d
  if rij.dot rij < d2 then
    pure (some ⟨part1.ID, part2.ID, rij.dot rij / unitLength ^ 2, d2 / unitLength ^ 2⟩)
  else
    pure none

/-- `IRotatedParallelCubes::checkOverlaps(part1, part2)`: the diagnostic
written, if any. -/
def IRotatedParallelCubes.checkOverlaps (unitLength : K) (ops : SimOps σ K D)
    (self : IRotatedParallelCubes K) (Sim : SimData σ K D) (part1 part2 : Particle K) :
    Option (OverlapReport K) :=
  let rij := ops.applyBCPos Sim.world (part1.position.sub part2.position)
  if rij.dot rij < self.diameter * self.diameter then
    some ⟨part1.ID, part2.ID, rij.dot rij / unitLength ^ 2,
      self.diameter * self.diameter / unitLength ^ 2⟩
  else
    none

end Overlaps

/-- `CLCylinder::getEvent(part)`; the block under `ISSS_DEBUG` is not compiled. -/
def CLCylinder.getEvent {σ K D : Type} (ops : SimOps σ K D) (self : CLCylinder K)
    (Sim : SimData σ K D) (part : Particle K) : LocalEvent K :=
  ⟨part.ID, ops.getCylinderWallCollision Sim.world part self.vPosition self.vNorm self.radius,
    .WALL, self.ID⟩

/-- Collaborators whose root finder and resolver return the arguments they
were called with: the contact distance as the time, the pair `(e, d2)` as the
event data. -/
def echoOps : SimOps Unit ℚ (ℚ × ℚ) :=
  { SphereSphereInRoot := fun _ _ _ d => ((d : ℚ) : WithTop ℚ)
    applyBC := fun _ rv => rv
    applyBCPos := fun _ r => r
    getCylinderWallCollision := fun _ _ _ _ r => ((r : ℚ) : WithTop ℚ)
    CubeCubeInRoot := fun _ c _ => (false, c)
    SmoothSpheresColl := fun w _ e d2 => ((e, d2), w)
    parallelCubeColl := fun w _ e d _ => ((e, d), w)
    runCylinderWallCollision := fun w _ _ _ e => ((e, 0), w)
    signalParticleUpdate := fun w _ => w
    fullUpdate := fun w _ => w
    eventUpdate := fun _ w _ _ => w }

/-- A simulation over `echoOps` with no output plugin. -/
def echoSim : SimData Unit ℚ (ℚ × ℚ) :=
  { eventCount := 0, outputPlugins := [], world := (), log := [] }

/-- Hard spheres where particle `0` has diameter `1` and elasticity `1`, every
other particle diameter `3` and elasticity `1/2`. -/
def mixedHardSphere : IHardSphere ℚ :=
  { _diameter := { getName := "D", getProperty := fun ID => if ID = 0 then some 1 else some 3,
                   getMaxValue := 3 },
    _e := { getName := "E", getProperty := fun ID => if ID = 0 then some 1 else some (1 / 2),
            getMaxValue := 1 },
    intName := "Bulk", ID := 0 }

/-! ## `runEvent` with output plugins that throw

The `eventUpdate` of an output plugin is a virtual member function and may
throw; no `runEvent` has a handler.  The definitions of this section are the
three `runEvent` bodies with such plugins: the collaborators of `ops` other
than `eventUpdate` are as before, the plugins are the function `upd`, which
returns the state as the plugin left it and the exception that left the call,
if any. -/

section Throwing

variable {σ K D : Type}

/-- `BOOST_FOREACH(Ptr, Sim->outputPlugins) Ptr->eventUpdate(iEvent, EDat);`
over the plugins `l` still to be visited: each call is made on the state the
calls before it have left; an exception leaves the loop, and the plugins after
the one that threw are not called. -/
def SimData.forEachPluginThrowing (upd : Nat → σ → Event K → D → Assigned σ) (ev : Event K)
    (EDat : D) : List Nat → SimData σ K D → Assigned (SimData σ K D)
  | [], Sim => ⟨Sim, none⟩
  | Ptr :: rest, Sim =>
    match (upd Ptr Sim.world ev EDat).failure with
    | none =>
      SimData.forEachPluginThrowing upd ev EDat rest
        { Sim with world := (upd Ptr Sim.world ev EDat).obj,
                   log := Sim.log ++ [.eventUpdate Ptr ev EDat] }
    | some e =>
      ⟨{ Sim with world := (upd Ptr Sim.world ev EDat).obj,
                  log := Sim.log ++ [.eventUpdate Ptr ev EDat] }, some e⟩

/-- `IHardSphere::runEvent(p1, p2, iEvent)` with plugins that may throw. -/
def IHardSphere.runEventThrowing [Field K] [DecidableEq K] (ops : SimOps σ K D)
    (upd : Nat → σ → Event K → D → Assigned σ) (self : IHardSphere K) (Sim : SimData σ K D)
    (p1 p2 : Particle K) (iEvent : IntEvent K) : Except Err (Assigned (SimData σ K D)) := do
  let Sim := Sim.incEventCount
  let d ← self.pairDiameter p1.ID p2.ID
  let d2 := d * d
  let e1 ← self._e.get p1.ID
  let e2 ← self._e.get p2.ID
  let e := (e1 + e2) * 0.5
  let r := ops.SmoothSpheresColl Sim.world iEvent e d2
  let EDat := r.1
  let Sim := Sim.resolved r
  let Sim := Sim.signalParticleUpdate ops EDat
  let Sim := Sim.fullUpdate ops [p1.ID, p2.ID]
  pure (SimData.forEachPluginThrowing upd (.int iEvent) EDat Sim.outputPlugins Sim)

/-- `IRotatedParallelCubes::runEvent(p1, p2, iEvent)` with plugins that may
throw. -/
def IRotatedParallelCubes.runEventThrowing (ops : SimOps σ K D)
    (upd : Nat → σ → Event K → D → Assigned σ) (self : IRotatedParallelCubes K)
    (Sim : SimData σ K D) (p1 p2 : Particle K) (iEvent : IntEvent K) :
    Assigned (SimData σ K D) :=
  let Sim := Sim.incEventCount
  let r := ops.parallelCubeColl Sim.world iEvent self.e self.diameter self.Rotation
  let EDat := r.1
  let Sim := Sim.resolved r
  let Sim := Sim.signalParticleUpdate ops EDat
  let Sim := Sim.fullUpdate ops [p1.ID, p2.ID]
  SimData.forEachPluginThrowing upd (.int iEvent) EDat Sim.outputPlugins Sim

/-- `CLCylinder::runEvent(part, iEvent)` with plugins that may throw. -/
def CLCylinder.runEventThrowing (ops : SimOps σ K D)
    (upd : Nat → σ → Event K → D → Assigned σ) (self : CLCylinder K) (Sim : SimData σ K D)
    (part : Particle K) (iEvent : LocalEvent K) : Assigned (SimData σ K D) :=
  let Sim := Sim.incEventCount
  let r := ops.runCylinderWallCollision Sim.world part self.vPosition self.vNorm self.e
  let EDat := r.1
  let Sim := Sim.resolved r
  let Sim := Sim.signalParticleUpdate ops EDat
  let Sim := Sim.fullUpdate ops [part.ID]
  SimData.forEachPluginThrowing upd (.loc iEvent) EDat Sim.outputPlugins Sim

end Throwing

/-! ## Concrete inputs used to evaluate the definitions -/

/-- A property with the same value for every ID. -/
def constProperty {K : Type} (name : String) (v : K) : Property K :=
  { getName := name, getProperty := fun _ => some v, getMaxValue := v }

/-- Collaborators over a trivial state: the root finder of the spheres is the
modelled `sphereSphereInRoot`, there is no boundary wrap, no particle ever reaches
the cylinder wall, the root finder of the cubes looks at the `x` coordinate
only (a face contact along `x`), every resolver returns the record `7`. -/
def demoOps : SimOps Unit ℚ Nat :=
  { SphereSphereInRoot := fun _ p1 p2 d => sphereSphereInRoot (fun x => x) p1 p2 d
    applyBC := fun _ rv => rv
    applyBCPos := fun _ r => r
    getCylinderWallCollision := fun _ _ _ _ _ => HUGE_VAL
    CubeCubeInRoot := fun _ c d =>
      if c.rij.x * c.vij.x < 0 ∧ d < |c.rij.x| then
        (true, { c with dt := (((|c.rij.x| - d) / |c.vij.x| : ℚ) : WithTop ℚ) })
      else (false, c)
    SmoothSpheresColl := fun w _ _ _ => (7, w)
    parallelCubeColl := fun w _ _ _ _ => (7, w)
    runCylinderWallCollision := fun w _ _ _ _ => (7, w)
    signalParticleUpdate := fun w _ => w
    fullUpdate := fun w _ => w
    eventUpdate := fun _ w _ _ => w }

/-- A simulation with two output plugins, no event run so far. -/
def demoSim : SimData Unit ℚ Nat :=
  { eventCount := 0, outputPlugins := [0, 1], world := (), log := [] }

/-- Hard spheres of diameter `1` and elasticity `1`. -/
def demoHardSphere : IHardSphere ℚ :=
  { _diameter := constProperty "D" 1, _e := constProperty "E" 1, intName := "Bulk", ID := 0 }

/-- Cubes of diameter `1` in the unrotated frame. -/
def demoCubes : IRotatedParallelCubes ℚ :=
  { Rotation := Matrix.identity, diameter := 1, e := 1, intName := "Bulk", ID := 0 }

/-- A cylinder wall of radius `1` about the `z` axis. -/
def demoCylinder : CLCylinder ℚ :=
  { vNorm := ⟨0, 0, 1⟩, vPosition := ⟨0, 0, 0⟩, e := 1, radius := 1, render := true,
    localName := "Wall", ID := 0 }

/-- First particle of the head-on and grazing scenarios. -/
def demoP1 : Particle ℚ := { ID := 0, position := ⟨-1, 0, 0⟩, velocity := ⟨1, 0, 0⟩ }

/-- Second particle of the grazing-miss scenario, offset to `(+1, 1.01, 0)`. -/
def grazingP2 : Particle ℚ := { ID := 1, position := ⟨1, 101 / 100, 0⟩, velocity := ⟨-1, 0, 0⟩ }

/-- A pair event of the two particles. -/
def demoIntEvent : IntEvent ℚ :=
  { particle1ID := 0, particle2ID := 1, dt := ((1 / 2 : ℚ) : WithTop ℚ), CType := .CORE, intID := 0 }

/-- A wall event of the first particle. -/
def demoLocalEvent : LocalEvent ℚ :=
  { particleID := 0, dt := ((1 / 2 : ℚ) : WithTop ℚ), CType := .WALL, localID := 0 }

/-- A range factory that knows the class `CRSingle`. -/
def singleRangeOps (K : Type) : RangeOps CRSingle K :=
  { outputXML := CRSingle.outputXML, loadClass := CRSingle.fromXML }

/-- Modelled from the spec: the range "All" (all particles, all pairs), whose
class is not among the embedded sources, as a range factory: the range has no
member and writes `Range="All"`. -/
def allRangeOps (K : Type) : RangeOps Unit K :=
  { outputXML := fun _ => [("Range", .text "All")]
    loadClass := fun XML =>
      match attrIs (XML.getAttribute "Range") "All" with
      | .ok true => .ok ()
      | .ok false => .error (.thrown "Unknown type of Range encountered")
      | .error e => .error e }

/-- Cubes of diameter `2`, rotated by a quarter turn about `z`, for all pairs. -/
def demoRotatedCubes : WithRange Unit (IRotatedParallelCubes ℚ) :=
  { range := (),
    members := { Rotation := ⟨0, -1, 0, 1, 0, 0, 0, 0, 1⟩, diameter := 2, e := 1 / 2,
                 intName := "Cubes", ID := 3 } }

/-- A cylinder wall of radius `3` about the `z` axis through `(1, 2, 0)`, for
the particle `7`. -/
def demoWall (K : Type) [Field K] : WithRange CRSingle (CLCylinder K) :=
  { range := { ID := 7 },
    members := { vNorm := ⟨0, 0, 1⟩, vPosition := ⟨1, 2, 0⟩, e := 1, radius := 3,
                 render := true, localName := "Tube", ID := 0 } }

/-- The same wall with an axis vector of length `2`, as the constructor
`CLCylinder(Sim, e, norm, origin, r, name, range, render)` stores it. -/
def longAxisWall : WithRange CRSingle (CLCylinder ℝ) :=
  { range := { ID := 7 },
    members := { vNorm := ⟨0, 0, 2⟩, vPosition := ⟨1, 2, 0⟩, e := 1, radius := 3,
                 render := true, localName := "Tube", ID := 0 } }

/-- An element with the content of a cylinder wall whose `Type` names another
class. -/
def otherTypeWallXML (K : Type) [Field K] : XMLNode K :=
  .mk [("Type", .text "HardSphere"), ("Name", .text "Tube"), ("Elasticity", .num 1),
       ("Radius", .num 3), ("Render", .text "1"), ("Range", .text "Single"), ("ID", .text "7")]
      [("Norm", .mk [("x", .num 0), ("y", .num 0), ("z", .num 1)] []),
       ("Origin", .mk [("x", .num 1), ("y", .num 2), ("z", .num 0)] [])]

/-- The cube at rest in the origin. -/
def cubeP2 : Particle ℚ := { ID := 1, position := ⟨0, 0, 0⟩, velocity := ⟨0, 0, 0⟩ }

/-- Collaborators as `demoOps`, with a root finder of the cubes that takes
its test of approach from the scalar product `rvdot` of the pair data. -/
def rvdotOps : SimOps Unit ℚ Nat :=
  { demoOps with
    CubeCubeInRoot := fun _ c d =>
      if c.rvdot < 0 ∧ d < |c.rij.x| then
        (true, { c with dt := (((|c.rij.x| - d) / |c.vij.x| : ℚ) : WithTop ℚ) })
      else (false, c) }

/-- Cubes of diameter `1` with a `Rotation` that doubles the `x` coordinate: a
matrix that is not orthonormal. -/
def stretchedCubes : IRotatedParallelCubes ℚ :=
  { Rotation := ⟨2, 0, 0, 0, 1, 0, 0, 0, 1⟩, diameter := 1, e := 1, intName := "Cubes",
    ID := 3 }

/-- A cube at `(-1, 3, 0)` with velocity `(2, 1, 0)`. -/
def stretchP1 : Particle ℚ := { ID := 0, position := ⟨-1, 3, 0⟩, velocity := ⟨2, 1, 0⟩ }

/-- The same cube with position and velocity multiplied by the `Rotation` of
`stretchedCubes`. -/
def stretchQ1 : Particle ℚ := { ID := 0, position := ⟨-2, 3, 0⟩, velocity := ⟨4, 1, 0⟩ }

/-- A property store that knows no property, and an interaction loader that
sets the range "All". -/
def demoLoadOps : HardSphereLoadOps Unit ℚ :=
  { loadRange := fun _ => .ok ()
    getProperty := fun _ => .error (.thrown "No property of that name") }

/-- Collaborators whose state is the list of the `eventUpdate` calls that the
plugins have received, each as the plugin and the record it was given; the
other collaborators leave the state alone, every resolver returns the record
`7`. -/
def recordOps : SimOps (List (Nat × Nat)) ℚ Nat :=
  { SphereSphereInRoot := fun _ p1 p2 d => sphereSphereInRoot (fun x => x) p1 p2 d
    applyBC := fun _ rv => rv
    applyBCPos := fun _ r => r
    getCylinderWallCollision := fun _ _ _ _ _ => HUGE_VAL
    CubeCubeInRoot := fun _ c _ => (false, c)
    SmoothSpheresColl := fun w _ _ _ => (7, w)
    parallelCubeColl := fun w _ _ _ _ => (7, w)
    runCylinderWallCollision := fun w _ _ _ _ => (7, w)
    signalParticleUpdate := fun w _ => w
    fullUpdate := fun w _ => w
    eventUpdate := fun Ptr w _ d => w ++ [(Ptr, d)] }

/-- Plugins that note the call they receive; plugin `0` then throws. -/
def firstPluginThrows : Nat → List (Nat × Nat) → Event ℚ → Nat → Assigned (List (Nat × Nat)) :=
  fun Ptr w _ d => ⟨w ++ [(Ptr, d)], if Ptr = 0 then some (.thrown "plugin 0") else none⟩

/-- A simulation with the two output plugins `0` and `1`, no call received so
far. -/
def recordSim : SimData (List (Nat × Nat)) ℚ Nat :=
  { eventCount := 0, outputPlugins := [0, 1], world := [], log := [] }

/-! ## Lemmas on wrapping arithmetic -/

theorem usub_of_le {x y : Nat} (hy : y ≤ x) (hx : x < ULONG_SIZE) : usub x y = x - y := by
  unfold usub ULONG_SIZE at *
  omega

theorem usub_of_lt {x y : Nat} (hy : x < y) (hx : y < ULONG_SIZE) :
    usub x y = ULONG_SIZE - (y - x) := by
  unfold usub ULONG_SIZE at *
  omega

theorem floor_sub_div (a r n : Nat) (h : r ≤ a) :
    ⌊((a : ℚ) - (r : ℚ)) / (n : ℚ)⌋ = (((a - r) / n : Nat) : Int) := by
  have h1 : ((a : ℚ) - (r : ℚ)) = (((a - r : Nat) : Int) : ℚ) := by
    push_cast [Nat.cast_sub h]; ring
  rw [h1, Rat.floor_intCast_div_natCast]
  simp

/-! ## `C2RIntraChains::isInRange` -/

/-- With a positive interval `isInRange` returns, and its value is the Boolean
expression of the source. -/
theorem isInRange_eq_ok (c : C2RIntraChains) (p1 p2 : Nat) (hi : 0 < c.interval) :
    c.isInRange p1 p2 = .ok ((usub p1 c.range1 / c.interval == usub p2 c.range1 / c.interval)
      && decide (p2 ≥ c.range1) && decide (p2 ≤ c.range2)
      && decide (p1 ≥ c.range1) && decide (p1 ≤ c.range2)) := by
  unfold C2RIntraChains.isInRange
  rw [if_neg (Nat.pos_iff_ne_zero.mp hi)]

/-- For IDs at or above `range1` the wrapped quotients are the natural ones. -/
theorem isInRange_ok_true_iff_nat (c : C2RIntraChains) (a b : Nat) (hi : 0 < c.interval)
    (ha : a < ULONG_SIZE) (hb : b < ULONG_SIZE) :
    c.isInRange a b = .ok true ↔
      (c.range1 ≤ a ∧ a ≤ c.range2 ∧ c.range1 ≤ b ∧ b ≤ c.range2 ∧
        (a - c.range1) / c.interval = (b - c.range1) / c.interval) := by
  rw [isInRange_eq_ok c a b hi]
  simp only [Except.ok.injEq, Bool.and_eq_true, beq_iff_eq, decide_eq_true_eq, ge_iff_le]
  constructor
  · rintro ⟨⟨⟨⟨hq, h1⟩, h2⟩, h3⟩, h4⟩
    rw [usub_of_le h3 ha, usub_of_le h1 hb] at hq
    exact ⟨h3, h4, h1, h2, hq⟩
  · rintro ⟨h3, h4, h1, h2, hq⟩
    rw [← usub_of_le h3 ha, ← usub_of_le h1 hb] at hq
    exact ⟨⟨⟨⟨hq, h1⟩, h2⟩, h3⟩, h4⟩

/-- C1: for every `C2RIntraChains` with `interval > 0` and all particle IDs
`a`, `b` of the unsigned type, `isInRange(a, b)` returns, and it is true exactly
when `range1 ≤ a ≤ range2`, `range1 ≤ b ≤ range2` and
`⌊(a - range1) / interval⌋ = ⌊(b - range1) / interval⌋` over the mathematical
integers; an ID below `range1` (where the unsigned subtraction wraps) is never
in range.  With `range1 = 0`, `range2 = 9`, `interval = 5` the pairs `(2,4)` and
`(5,9)` are in range and `(4,5)`, `(3,5)` are not. -/
theorem C2RIntraChains.isInRange_spec (c : C2RIntraChains) (a b : Nat)
    (hi : 0 < c.interval) (ha : a < ULONG_SIZE) (hb : b < ULONG_SIZE) :
    (c.isInRange a b = .ok true ∨ c.isInRange a b = .ok false) ∧
    (c.isInRange a b = .ok true ↔
      (c.range1 ≤ a ∧ a ≤ c.range2 ∧ c.range1 ≤ b ∧ b ≤ c.range2 ∧
        ⌊((a : ℚ) - (c.range1 : ℚ)) / (c.interval : ℚ)⌋
          = ⌊((b : ℚ) - (c.range1 : ℚ)) / (c.interval : ℚ)⌋)) ∧
    (a < c.range1 ∨ b < c.range1 → c.isInRange a b = .ok false) ∧
    (C2RIntraChains.isInRange ⟨0, 9, 5⟩ 2 4 = .ok true ∧
      C2RIntraChains.isInRange ⟨0, 9, 5⟩ 5 9 = .ok true ∧
      C2RIntraChains.isInRange ⟨0, 9, 5⟩ 4 5 = .ok false ∧
      C2RIntraChains.isInRange ⟨0, 9, 5⟩ 3 5 = .ok false) := by
  have htot : c.isInRange a b = .ok true ∨ c.isInRange a b = .ok false := by
    rw [isInRange_eq_ok c a b hi]
    cases ((usub a c.range1 / c.interval == usub b c.range1 / c.interval)
      && decide (b ≥ c.range1) && decide (b ≤ c.range2)
      && decide (a ≥ c.range1) && decide (a ≤ c.range2)) <;> simp
  refine ⟨htot, ?_, ?_, by decide⟩
  · rw [isInRange_ok_true_iff_nat c a b hi ha hb]
    constructor
    · rintro ⟨h1, h2, h3, h4, hq⟩
      refine ⟨h1, h2, h3, h4, ?_⟩
      rw [floor_sub_div a c.range1 c.interval h1, floor_sub_div b c.range1 c.interval h3, hq]
    · rintro ⟨h1, h2, h3, h4, hq⟩
      refine ⟨h1, h2, h3, h4, ?_⟩
      rw [floor_sub_div a c.range1 c.interval h1, floor_sub_div b c.range1 c.interval h3] at hq
      exact_mod_cast hq
  · intro hlt
    rcases htot with h | h
    · have := (isInRange_ok_true_iff_nat c a b hi ha hb).mp h
      omega
    · exact h

/-- The scenario of the specification, obtained from `isInRange_spec`. -/
theorem C2RIntraChains.isInRange_spec_witness :
    C2RIntraChains.isInRange ⟨0, 9, 5⟩ 2 4 = .ok true ∧
    ⌊(((2 : Nat) : ℚ) - ((0 : Nat) : ℚ)) / ((5 : Nat) : ℚ)⌋
      = ⌊(((4 : Nat) : ℚ) - ((0 : Nat) : ℚ)) / ((5 : Nat) : ℚ)⌋ :=
  have h := (C2RIntraChains.isInRange_spec ⟨0, 9, 5⟩ 2 4 (by decide) (by decide) (by decide)).2.1
  ⟨by decide, (h.mp (by decide)).2.2.2.2⟩

/-! ## The constructors of `C2RIntraChains` -/

theorem checkSplit_eq (c : C2RIntraChains) (hi : 0 < c.interval) :
    c.checkSplit = if uadd (usub c.range2 c.range1) 1 % c.interval ≠ 0
      then .error (.thrown splitMsg) else .ok c := by
  unfold C2RIntraChains.checkSplit
  rw [if_neg (Nat.pos_iff_ne_zero.mp hi)]

/-- The wrapped `r2 - r1 + 1` as a residue of the integer `r2 - r1 + 1`. -/
theorem uadd_usub_one (r1 r2 : Nat) :
    ((uadd (usub r2 r1) 1 : Nat) : Int) = ((r2 : Int) - (r1 : Int) + 1) % (ULONG_SIZE : Int) := by
  unfold uadd usub ULONG_SIZE at *
  omega

/-- When `r1 ≤ r2` and the range is not the whole type, the wrapped
`r2 - r1 + 1` is the number of IDs of the range. -/
theorem uadd_usub_one_of_le (r1 r2 : Nat) (h : r1 ≤ r2) (hlt : r2 - r1 + 1 < ULONG_SIZE) :
    uadd (usub r2 r1) 1 = r2 - r1 + 1 := by
  unfold uadd usub ULONG_SIZE at *
  omega

/-- In a range that the constructor accepted, that is not inverted and not the
whole unsigned type, the chain of any ID `a` of the range is the block
`[range1 + k * interval, range1 + (k + 1) * interval - 1]` with
`k = (a - range1) / interval`; the block has `interval` IDs and lies inside
`[range1, range2]`. -/
theorem chains_partition_of_no_wrap (c : C2RIntraChains) (a : Nat) (hwf : c.wf)
    (hacc : C2RIntraChains.construct c.range1 c.range2 c.interval = .ok c)
    (hle : c.range1 ≤ c.range2) (hlt : c.range2 - c.range1 + 1 < ULONG_SIZE)
    (hi : 0 < c.interval) (ha1 : c.range1 ≤ a) (ha2 : a ≤ c.range2) :
    (∀ b, b < ULONG_SIZE → (c.isInRange a b = .ok true ↔
      c.range1 + (a - c.range1) / c.interval * c.interval ≤ b ∧
      b ≤ c.range1 + ((a - c.range1) / c.interval + 1) * c.interval - 1)) ∧
    c.range1 ≤ c.range1 + (a - c.range1) / c.interval * c.interval ∧
    c.range1 + ((a - c.range1) / c.interval + 1) * c.interval - 1 ≤ c.range2 ∧
    (Finset.Icc (c.range1 + (a - c.range1) / c.interval * c.interval)
      (c.range1 + ((a - c.range1) / c.interval + 1) * c.interval - 1)).card = c.interval := by
  have hdvd : c.interval ∣ c.range2 - c.range1 + 1 := by
    have h := hacc
    unfold C2RIntraChains.construct at h
    rw [checkSplit_eq _ hi] at h
    simp only [uadd_usub_one_of_le _ _ hle hlt] at h
    split at h
    · cases h
    · rename_i hmod
      exact Nat.dvd_of_mod_eq_zero (by simpa using hmod)
  obtain ⟨m, hm⟩ := hdvd
  have hkl : (a - c.range1) / c.interval * c.interval ≤ a - c.range1 := Nat.div_mul_le_self _ _
  have hku : a - c.range1 < ((a - c.range1) / c.interval + 1) * c.interval := by
    have := Nat.lt_div_mul_add (a := a - c.range1) hi
    rw [Nat.add_mul, Nat.one_mul]
    exact this
  have hkm : (a - c.range1) / c.interval < m := by
    apply (Nat.div_lt_iff_lt_mul hi).mpr
    rw [Nat.mul_comm, ← hm]
    omega
  have hblk : ((a - c.range1) / c.interval + 1) * c.interval ≤ c.range2 - c.range1 + 1 := by
    rw [hm, Nat.mul_comm c.interval m]
    exact Nat.mul_le_mul_right _ hkm
  have hexp : ((a - c.range1) / c.interval + 1) * c.interval
      = (a - c.range1) / c.interval * c.interval + c.interval := by
    rw [Nat.add_mul, Nat.one_mul]
  have hasz : a < ULONG_SIZE := Nat.lt_of_le_of_lt ha2 hwf.2.1
  refine ⟨?_, by omega, by omega, ?_⟩
  · intro b hb
    rw [isInRange_ok_true_iff_nat c a b hi hasz hb]
    constructor
    · rintro ⟨_, _, hb1, hb2, hq⟩
      have h1 : (a - c.range1) / c.interval * c.interval ≤ b - c.range1 := by
        rw [hq]; exact Nat.div_mul_le_self _ _
      have h2 : b - c.range1 < ((a - c.range1) / c.interval + 1) * c.interval := by
        rw [hq, Nat.add_mul, Nat.one_mul]
        exact Nat.lt_div_mul_add hi
      omega
    · rintro ⟨hb1, hb2⟩
      refine ⟨ha1, ha2, by omega, by omega, ?_⟩
      symm
      apply Nat.le_antisymm
      · apply Nat.lt_add_one_iff.mp
        apply (Nat.div_lt_iff_lt_mul hi).mpr
        omega
      · apply (Nat.le_div_iff_mul_le hi).mpr
        omega
  · rw [Nat.card_Icc]
    omega

/-- The range check rejects exactly when the wrapped `r2 - r1 + 1` is not a
multiple of the interval, and otherwise stores the three values. -/
theorem construct_cases (s e i : Nat) (hi : 0 < i) :
    (C2RIntraChains.construct s e i = .error (.thrown splitMsg) ∧ ¬ i ∣ uadd (usub e s) 1) ∨
    (C2RIntraChains.construct s e i = .ok ⟨s, e, i⟩ ∧ i ∣ uadd (usub e s) 1) := by
  unfold C2RIntraChains.construct
  rw [checkSplit_eq _ hi]
  by_cases h : uadd (usub e s) 1 % i = 0
  · right
    exact ⟨by simp [h], Nat.dvd_of_mod_eq_zero h⟩
  · left
    refine ⟨by simp [h], fun hd => h (Nat.mod_eq_zero_of_dvd hd)⟩

theorem construct_rejected_iff (s e i : Nat) (hi : 0 < i) :
    C2RIntraChains.construct s e i = .error (.thrown splitMsg) ↔ ¬ i ∣ uadd (usub e s) 1 := by
  rcases construct_cases s e i hi with ⟨h, hd⟩ | ⟨h, hd⟩
  · simp [h, hd]
  · simp [h, hd]

/-- The XML constructor on an element whose `Range` is `"IntraChains"` and whose
`Start`, `End`, `Interval` read as `s`, `e`, `i` is the three-integer
constructor on `s`, `e`, `i`. -/
theorem fromXML_eq_construct (XML : Node) (s e i : Nat)
    (hr : XML.getAttribute "Range" = .ok "IntraChains")
    (hs : (XML.getAttribute "Start" >>= as_ulong) = .ok s)
    (he : (XML.getAttribute "End" >>= as_ulong) = .ok e)
    (hi : (XML.getAttribute "Interval" >>= as_ulong) = .ok i) :
    C2RIntraChains.fromXML XML = C2RIntraChains.construct s e i := by
  unfold C2RIntraChains.fromXML C2RIntraChains.construct
  rw [hr]
  simp only [bind, Except.bind] at hs he hi ⊢
  simp only [ne_eq, not_true_eq_false, if_false]
  rw [hs, he, hi]

/-- C2 (the code at the input where the claim fails): the constructor accepts
the range `[0, 2^64 - 1]` with interval `3`, because `r2 - r1 + 1` wraps to `0`;
yet `2^64` IDs do not split into chains of `3`: the last ID `2^64 - 1` is in
range with itself only, and the block of length `3` that starts at its chain
ends beyond `range2`. -/
theorem C2RIntraChains.full_range_not_partitioned :
    C2RIntraChains.construct 0 ULONG_MAX 3 = .ok ⟨0, ULONG_MAX, 3⟩ ∧
    (∀ b, b < ULONG_SIZE →
      (C2RIntraChains.isInRange ⟨0, ULONG_MAX, 3⟩ ULONG_MAX b = .ok true ↔ b = ULONG_MAX)) ∧
    ¬ (0 + ((ULONG_MAX - 0) / 3 + 1) * 3 - 1 ≤ ULONG_MAX) ∧
    ¬ (3 ∣ ULONG_MAX - 0 + 1) := by
  refine ⟨by decide, ?_, by decide, by decide⟩
  intro b hb
  rw [isInRange_ok_true_iff_nat ⟨0, ULONG_MAX, 3⟩ ULONG_MAX b (by decide) (by decide) hb]
  simp only [ULONG_MAX, ULONG_SIZE] at *
  omega

/-- C3 (as amended): for `Interval > 0` the three-integer constructor either
rejects with the range message or succeeds storing `range1`, `range2`,
`interval` exactly as given.  When `Start ≤ End` and the range has fewer than
`2^64` IDs it rejects exactly when the number of IDs `End - Start + 1` is not a
multiple of `Interval`.  When `End < Start` it rejects exactly when the wrapped
value `(End - Start + 1) mod 2^64` is not a multiple of `Interval`.  The XML
constructor on an element with `Range = "IntraChains"` whose `Start`, `End`,
`Interval` read as these values does the same. -/
theorem C2RIntraChains.construct_spec (s e i : Nat) (hi : 0 < i) :
    (C2RIntraChains.construct s e i = .error (.thrown splitMsg) ∨
      C2RIntraChains.construct s e i = .ok ⟨s, e, i⟩) ∧
    (s ≤ e → e - s + 1 < ULONG_SIZE →
      (C2RIntraChains.construct s e i = .error (.thrown splitMsg) ↔ ¬ i ∣ e - s + 1)) ∧
    (s ≤ e → e - s + 1 < ULONG_SIZE →
      (C2RIntraChains.construct s e i = .ok ⟨s, e, i⟩ ↔ i ∣ e - s + 1)) ∧
    (e < s →
      (C2RIntraChains.construct s e i = .error (.thrown splitMsg) ↔
        ¬ (i : Int) ∣ ((e : Int) - (s : Int) + 1) % (ULONG_SIZE : Int))) ∧
    (∀ XML : Node, XML.getAttribute "Range" = .ok "IntraChains" →
      (XML.getAttribute "Start" >>= as_ulong) = .ok s →
      (XML.getAttribute "End" >>= as_ulong) = .ok e →
      (XML.getAttribute "Interval" >>= as_ulong) = .ok i →
      C2RIntraChains.fromXML XML = C2RIntraChains.construct s e i) := by
  refine ⟨?_, ?_, ?_, ?_, ?_⟩
  · rcases construct_cases s e i hi with ⟨h, _⟩ | ⟨h, _⟩
    · exact Or.inl h
    · exact Or.inr h
  · intro hle hlt
    rw [construct_rejected_iff s e i hi, uadd_usub_one_of_le s e hle hlt]
  · intro hle hlt
    rcases construct_cases s e i hi with ⟨h, hd⟩ | ⟨h, hd⟩
    · rw [uadd_usub_one_of_le s e hle hlt] at hd
      simp [h, hd]
    · rw [uadd_usub_one_of_le s e hle hlt] at hd
      simp [h, hd]
  · intro _
    rw [construct_rejected_iff s e i hi, ← uadd_usub_one s e, Int.natCast_dvd_natCast]
  · intro XML hr hs he hi2
    exact fromXML_eq_construct XML s e i hr hs he hi2

/-- The range `[0, 9]` with interval `5`: ten IDs, accepted. -/
theorem C2RIntraChains.construct_spec_witness :
    0 < 5 ∧ (C2RIntraChains.construct 0 9 5 = .ok ⟨0, 9, 5⟩ ↔ 5 ∣ 9 - 0 + 1) ∧
    C2RIntraChains.fromXML (.mk [("Range", "IntraChains"), ("Start", "0"), ("End", "9"),
      ("Interval", "5")] []) = C2RIntraChains.construct 0 9 5 :=
  have h := C2RIntraChains.construct_spec 0 9 5 (by decide)
  ⟨by decide, h.2.2.1 (by decide) (by decide),
    h.2.2.2.2 _ (by decide) (by decide) (by decide) (by decide)⟩

/-- C3 (counterexample to the claim as stated): with `End < Start` the test is
made on the wrapped value.  `Start = 4, End = 0, Interval = 3` is rejected
although `End - Start + 1 = -3` is a multiple of `3`, and
`Start = 2, End = 0, Interval = 3` is accepted although `End - Start + 1 = -1`
is not a multiple of `3`. -/
theorem C2RIntraChains.construct_wrap_counterexample :
    (C2RIntraChains.construct 4 0 3 = .error (.thrown splitMsg) ∧
      (3 : Int) ∣ (0 : Int) - 4 + 1) ∧
    (C2RIntraChains.construct 2 0 3 = .ok ⟨2, 0, 3⟩ ∧
      ¬ (3 : Int) ∣ (0 : Int) - 2 + 1) ∧
    ¬ (∀ s e i : Nat, s < ULONG_SIZE → e < ULONG_SIZE → 0 < i →
      (C2RIntraChains.construct s e i = .error (.thrown splitMsg) ↔
        ¬ (i : Int) ∣ (e : Int) - (s : Int) + 1)) := by
  refine ⟨⟨by decide, by decide⟩, ⟨by decide, by decide⟩, ?_⟩
  intro h
  have h4 := (h 4 0 3 (by decide) (by decide) (by decide)).mp (by decide)
  exact h4 (by decide)

/-! ## `IHardSphere::getEvent` and `maxIntDist` -/

section HardSphereProofs

variable {σ K D : Type} [LinearOrderedField K]

omit [LinearOrderedField K] in
theorem Property.get_of_some (prop : Property K) (ID : Nat) (v : K)
    (h : prop.getProperty ID = some v) : prop.get ID = .ok v := by
  unfold Property.get
  rw [h]

theorem pairDiameter_of_some (self : IHardSphere K) (ID1 ID2 : Nat) (d1 d2 : K)
    (h1 : self._diameter.getProperty ID1 = some d1)
    (h2 : self._diameter.getProperty ID2 = some d2) :
    self.pairDiameter ID1 ID2 = .ok ((d1 + d2) / 2) := by
  unfold IHardSphere.pairDiameter
  rw [Property.get_of_some _ _ _ h1, Property.get_of_some _ _ _ h2]
  have h : (d1 + d2) * 0.5 = (d1 + d2) / 2 := by norm_num [div_eq_mul_inv]
  simp only [bind, Except.bind, pure, Except.pure, h]

/-- C4: for particles whose IDs are in the domain of the diameter property,
`getEvent` returns (it never fails); with `d = (d(p1) + d(p2)) / 2` and
`dt = SphereSphereInRoot(p1, p2, d)` the event is `(p1, p2, dt, CORE)` when
`dt` is not `HUGE_VAL` and `(p1, p2, HUGE_VAL, NONE)` otherwise; so the event
has kind `NONE` exactly when its time is `HUGE_VAL`. -/
theorem IHardSphere.getEvent_spec (ops : SimOps σ K D) (self : IHardSphere K)
    (Sim : SimData σ K D) (p1 p2 : Particle K) (d1 d2 : K)
    (h1 : self._diameter.getProperty p1.ID = some d1)
    (h2 : self._diameter.getProperty p2.ID = some d2) :
    ∃ ev, self.getEvent ops Sim p1 p2 = .ok ev ∧
      (ops.SphereSphereInRoot Sim.world p1 p2 ((d1 + d2) / 2) ≠ HUGE_VAL →
        ev = ⟨p1.ID, p2.ID, ops.SphereSphereInRoot Sim.world p1 p2 ((d1 + d2) / 2),
          .CORE, self.ID⟩) ∧
      (ops.SphereSphereInRoot Sim.world p1 p2 ((d1 + d2) / 2) = HUGE_VAL →
        ev = ⟨p1.ID, p2.ID, HUGE_VAL, .NONE, self.ID⟩) ∧
      (ev.CType = .NONE ↔ ev.dt = HUGE_VAL) := by
  classical
  unfold IHardSphere.getEvent
  rw [pairDiameter_of_some self _ _ d1 d2 h1 h2]
  simp only [bind, Except.bind, pure, Except.pure]
  by_cases hdt : ops.SphereSphereInRoot Sim.world p1 p2 ((d1 + d2) / 2) = HUGE_VAL
  · refine ⟨⟨p1.ID, p2.ID, HUGE_VAL, .NONE, self.ID⟩, ?_, ?_, ?_, ?_⟩
    · simp [hdt]
    · intro hne; exact absurd hdt hne
    · intro _; rfl
    · simp
  · refine ⟨⟨p1.ID, p2.ID, ops.SphereSphereInRoot Sim.world p1 p2 ((d1 + d2) / 2),
      .CORE, self.ID⟩, ?_, ?_, ?_, ?_⟩
    · simp [hdt]
    · intro _; rfl
    · intro he; exact absurd he hdt
    · simp [hdt]

/-- C5: when `getMaxValue()` bounds `getProperty(ID)` for every ID, the contact
distance `(d(p1) + d(p2)) / 2` that `getEvent` computes is at most
`maxIntDist()`, and it equals `maxIntDist()` when both particles have the
maximal diameter. -/
theorem IHardSphere.hardSphere_maxIntDist_bound (self : IHardSphere K) (ID1 ID2 : Nat) (d1 d2 : K)
    (hmax : ∀ ID v, self._diameter.getProperty ID = some v → v ≤ self._diameter.getMaxValue)
    (h1 : self._diameter.getProperty ID1 = some d1)
    (h2 : self._diameter.getProperty ID2 = some d2) :
    self.pairDiameter ID1 ID2 = .ok ((d1 + d2) / 2) ∧
    (d1 + d2) / 2 ≤ self.maxIntDist ∧
    (d1 = self._diameter.getMaxValue → d2 = self._diameter.getMaxValue →
      (d1 + d2) / 2 = self.maxIntDist) := by
  have hd1 := hmax ID1 d1 h1
  have hd2 := hmax ID2 d2 h2
  refine ⟨pairDiameter_of_some self ID1 ID2 d1 d2 h1 h2, ?_, ?_⟩
  · unfold IHardSphere.maxIntDist
    linarith
  · intro e1 e2
    unfold IHardSphere.maxIntDist
    rw [e1, e2]
    ring

end HardSphereProofs

/-- The grazing-miss scenario (second particle offset to `(+1, 1.01, 0)`,
diameter `1`): the modelled root finder reports no root and `getEvent` returns
the event `NONE` at `HUGE_VAL`. -/
theorem IHardSphere.getEvent_spec_witness :
    demoOps.SphereSphereInRoot demoSim.world demoP1 grazingP2 ((1 + 1) / 2) = HUGE_VAL ∧
    ∃ ev, demoHardSphere.getEvent demoOps demoSim demoP1 grazingP2 = .ok ev ∧
      ev.CType = .NONE ∧ ev.dt = HUGE_VAL :=
  have hroot : demoOps.SphereSphereInRoot demoSim.world demoP1 grazingP2 ((1 + 1) / 2)
      = HUGE_VAL := by
    simp only [demoOps, sphereSphereInRoot, demoP1, grazingP2, Vector.sub, Vector.dot,
      Vector.nrm2]
    norm_num
  have h := IHardSphere.getEvent_spec demoOps demoHardSphere demoSim demoP1 grazingP2 1 1 rfl rfl
  ⟨hroot, h.choose, h.choose_spec.1, by
    rw [h.choose_spec.2.2.1 hroot], by
    rw [h.choose_spec.2.2.1 hroot]⟩

/-- Two particles of diameters `1` and `3` where the store reports the maximum `3`. -/
theorem IHardSphere.hardSphere_maxIntDist_witness :
    (({ _diameter := { getName := "D", getProperty := fun ID => if ID = 0 then some 1 else some 3,
                       getMaxValue := 3 },
        _e := constProperty "E" 1, intName := "Bulk", ID := 0 } : IHardSphere ℚ).pairDiameter 0 1
      = .ok (((1 : ℚ) + 3) / 2)) ∧ ((1 : ℚ) + 3) / 2 ≤ 3 :=
  have h := IHardSphere.hardSphere_maxIntDist_bound
    ({ _diameter := { getName := "D", getProperty := fun ID => if ID = 0 then some 1 else some 3,
                      getMaxValue := 3 },
       _e := constProperty "E" 1, intName := "Bulk", ID := 0 } : IHardSphere ℚ) 0 1 1 3
    (by
      intro ID v hv
      by_cases h0 : ID = 0
      · simp only [h0, if_true, Option.some.injEq] at hv
        rw [← hv]; norm_num
      · simp only [h0, if_false, Option.some.injEq] at hv
        rw [← hv])
    (by simp) (by simp)
  ⟨h.1, h.2.1⟩

/-! ## `IRotatedParallelCubes::maxIntDist` -/

/-- An orthonormal matrix preserves the squared length. -/
theorem Matrix.Orthonormal.nrm2_mulVec {K : Type} [Field K] (M : Matrix K)
    (hM : M.Orthonormal) (v : Vector K) : (M.mulVec v).nrm2 = v.nrm2 := by
  unfold Matrix.Orthonormal Matrix.transpose Matrix.mul Matrix.identity at hM
  simp only [Matrix.mk.injEq] at hM
  obtain ⟨h11, h12, h13, _, h22, h23, _, _, h33⟩ := hM
  simp only [Matrix.mulVec, Vector.nrm2, Vector.dot]
  linear_combination (v.x * v.x) * h11 + (2 * v.x * v.y) * h12 + (2 * v.x * v.z) * h13
    + (v.y * v.y) * h22 + (2 * v.y * v.z) * h23 + (v.z * v.z) * h33

/-- C6: over the reals `maxIntDist() = sqrt(3) * diameter`; for `diameter ≥ 0`,
an orthonormal `Rotation` and a relative position `rij` whose rotated
components all have absolute value at most `diameter`, the Euclidean length
of `rij` is at most `maxIntDist()`; and `hardCoreDiam() = diameter ≤
maxIntDist()`. -/
theorem IRotatedParallelCubes.cubes_maxIntDist_bound (self : IRotatedParallelCubes ℝ)
    (rij : Vector ℝ) (hd : 0 ≤ self.diameter) (hR : self.Rotation.Orthonormal)
    (hx : |(self.Rotation.mulVec rij).x| ≤ self.diameter)
    (hy : |(self.Rotation.mulVec rij).y| ≤ self.diameter)
    (hz : |(self.Rotation.mulVec rij).z| ≤ self.diameter) :
    self.maxIntDist Real.sqrt = Real.sqrt 3 * self.diameter ∧
    rij.nrm Real.sqrt ≤ self.maxIntDist Real.sqrt ∧
    self.hardCoreDiam = self.diameter ∧
    self.hardCoreDiam ≤ self.maxIntDist Real.sqrt := by
  have hmax : self.maxIntDist Real.sqrt = Real.sqrt 3 * self.diameter := by
    simp [IRotatedParallelCubes.maxIntDist, NDIM]
  have hsq : ∀ t : ℝ, |t| ≤ self.diameter → t * t ≤ self.diameter * self.diameter := by
    intro t ht
    have h := abs_le.mp ht
    nlinarith [h.1, h.2]
  have hn : rij.nrm2 ≤ 3 * (self.diameter * self.diameter) := by
    rw [← Matrix.Orthonormal.nrm2_mulVec self.Rotation hR rij]
    have h1 := hsq _ hx
    have h2 := hsq _ hy
    have h3 := hsq _ hz
    simp only [Vector.nrm2, Vector.dot]
    linarith
  have h3d : Real.sqrt (3 * (self.diameter * self.diameter)) = Real.sqrt 3 * self.diameter := by
    rw [Real.sqrt_mul (by norm_num : (0 : ℝ) ≤ 3), Real.sqrt_mul_self hd]
  have h1le : (1 : ℝ) ≤ Real.sqrt 3 := by
    rw [show (1 : ℝ) = Real.sqrt 1 from Real.sqrt_one.symm]
    exact Real.sqrt_le_sqrt (by norm_num)
  refine ⟨hmax, ?_, rfl, ?_⟩
  · rw [hmax, ← h3d]
    exact Real.sqrt_le_sqrt hn
  · rw [hmax]
    unfold IRotatedParallelCubes.hardCoreDiam
    nlinarith

/-- Cubes of diameter `1`, rotated by a quarter turn about `z`, with centres
separated by `(1, 1, 1)`: the corner contact, at distance `sqrt 3`. -/
theorem IRotatedParallelCubes.cubes_maxIntDist_witness :
    (⟨1, 1, 1⟩ : Vector ℝ).nrm Real.sqrt ≤
      ({ Rotation := ⟨0, -1, 0, 1, 0, 0, 0, 0, 1⟩, diameter := 1, e := 1, intName := "Bulk",
         ID := 0 } : IRotatedParallelCubes ℝ).maxIntDist Real.sqrt :=
  (IRotatedParallelCubes.cubes_maxIntDist_bound
    { Rotation := ⟨0, -1, 0, 1, 0, 0, 0, 0, 1⟩, diameter := 1, e := 1, intName := "Bulk", ID := 0 }
    ⟨1, 1, 1⟩ (by norm_num)
    (by simp [Matrix.Orthonormal, Matrix.transpose, Matrix.mul, Matrix.identity])
    (by simp [Matrix.mulVec]) (by simp [Matrix.mulVec]) (by simp [Matrix.mulVec])).2.1

/-! ## `runEvent` -/

section RunEventProofs

variable {σ K D : Type}

/-- The loop over the output plugins appends one `eventUpdate` per plugin, in
list order, and leaves the counter and the plugin list alone. -/
theorem foldl_eventUpdate (ops : SimOps σ K D) (ev : Event K) (EDat : D) (l : List Nat)
    (S : SimData σ K D) :
    (l.foldl (SimData.eventUpdate ops ev EDat) S).log
        = S.log ++ l.map (fun Ptr => Step.eventUpdate Ptr ev EDat) ∧
    (l.foldl (SimData.eventUpdate ops ev EDat) S).eventCount = S.eventCount ∧
    (l.foldl (SimData.eventUpdate ops ev EDat) S).outputPlugins = S.outputPlugins := by
  induction l generalizing S with
  | nil => simp
  | cons Ptr rest ih =>
    obtain ⟨h1, h2, h3⟩ := ih (SimData.eventUpdate ops ev EDat S Ptr)
    simp only [List.foldl_cons, List.map_cons]
    refine ⟨?_, ?_, ?_⟩
    · rw [h1]; simp [SimData.eventUpdate]
    · rw [h2]; rfl
    · rw [h3]; rfl

/-- What the part shared by the three `runEvent` bodies does after the resolver
has returned `r`: log and counter. -/
theorem afterResolver (ops : SimOps σ K D) (Sim : SimData σ K D) (r : D × σ)
    (IDs : List Nat) (ev : Event K) :
    (SimData.forEachPlugin ops
        (SimData.fullUpdate ops
          (SimData.signalParticleUpdate ops (SimData.resolved (SimData.incEventCount Sim) r) r.1)
          IDs) ev r.1).log
      = Sim.log ++ ([.countIncremented, .resolved r.1, .signalParticleUpdate r.1,
          .fullUpdate IDs] ++ Sim.outputPlugins.map (fun Ptr => Step.eventUpdate Ptr ev r.1)) ∧
    (SimData.forEachPlugin ops
        (SimData.fullUpdate ops
          (SimData.signalParticleUpdate ops (SimData.resolved (SimData.incEventCount Sim) r) r.1)
          IDs) ev r.1).eventCount = Sim.eventCount + 1 := by
  unfold SimData.forEachPlugin
  obtain ⟨h1, h2, _⟩ := foldl_eventUpdate ops ev r.1
    (SimData.fullUpdate ops
      (SimData.signalParticleUpdate ops (SimData.resolved (SimData.incEventCount Sim) r) r.1)
      IDs).outputPlugins
    (SimData.fullUpdate ops
      (SimData.signalParticleUpdate ops (SimData.resolved (SimData.incEventCount Sim) r) r.1)
      IDs)
  refine ⟨?_, ?_⟩
  · rw [h1]
    simp [SimData.fullUpdate, SimData.signalParticleUpdate, SimData.resolved,
      SimData.incEventCount]
  · rw [h2]
    rfl

theorem CLCylinder.cylinder_runEvent_log (ops : SimOps σ K D) (self : CLCylinder K)
    (Sim : SimData σ K D) (part : Particle K) (iEvent : LocalEvent K) :
    (self.runEvent ops Sim part iEvent).log
      = Sim.log ++ ([.countIncremented,
          .resolved (ops.runCylinderWallCollision Sim.world part self.vPosition self.vNorm self.e).1,
          .signalParticleUpdate
            (ops.runCylinderWallCollision Sim.world part self.vPosition self.vNorm self.e).1,
          .fullUpdate [part.ID]]
        ++ Sim.outputPlugins.map (fun Ptr => Step.eventUpdate Ptr (.loc iEvent)
          (ops.runCylinderWallCollision Sim.world part self.vPosition self.vNorm self.e).1)) ∧
    (self.runEvent ops Sim part iEvent).eventCount = Sim.eventCount + 1 :=
  afterResolver ops Sim
    (ops.runCylinderWallCollision Sim.world part self.vPosition self.vNorm self.e)
    [part.ID] (.loc iEvent)

theorem IRotatedParallelCubes.cubes_runEvent_log [Field K] (ops : SimOps σ K D)
    (self : IRotatedParallelCubes K) (Sim : SimData σ K D) (p1 p2 : Particle K)
    (iEvent : IntEvent K) :
    (self.runEvent ops Sim p1 p2 iEvent).log
      = Sim.log ++ ([.countIncremented,
          .resolved (ops.parallelCubeColl Sim.world iEvent self.e self.diameter self.Rotation).1,
          .signalParticleUpdate
            (ops.parallelCubeColl Sim.world iEvent self.e self.diameter self.Rotation).1,
          .fullUpdate [p1.ID, p2.ID]]
        ++ Sim.outputPlugins.map (fun Ptr => Step.eventUpdate Ptr (.int iEvent)
          (ops.parallelCubeColl Sim.world iEvent self.e self.diameter self.Rotation).1)) ∧
    (self.runEvent ops Sim p1 p2 iEvent).eventCount = Sim.eventCount + 1 :=
  afterResolver ops Sim
    (ops.parallelCubeColl Sim.world iEvent self.e self.diameter self.Rotation)
    [p1.ID, p2.ID] (.int iEvent)

theorem IHardSphere.hardSphere_runEvent_log [LinearOrderedField K] (ops : SimOps σ K D)
    (self : IHardSphere K) (Sim : SimData σ K D) (p1 p2 : Particle K) (iEvent : IntEvent K)
    (d1 d2 e1 e2 : K)
    (hd1 : self._diameter.getProperty p1.ID = some d1)
    (hd2 : self._diameter.getProperty p2.ID = some d2)
    (he1 : self._e.getProperty p1.ID = some e1)
    (he2 : self._e.getProperty p2.ID = some e2) :
    ∃ S, self.runEvent ops Sim p1 p2 iEvent = .ok S ∧
      S.log = Sim.log ++ ([.countIncremented,
          .resolved (ops.SmoothSpheresColl Sim.world iEvent ((e1 + e2) / 2)
            ((d1 + d2) / 2 * ((d1 + d2) / 2))).1,
          .signalParticleUpdate (ops.SmoothSpheresColl Sim.world iEvent ((e1 + e2) / 2)
            ((d1 + d2) / 2 * ((d1 + d2) / 2))).1,
          .fullUpdate [p1.ID, p2.ID]]
        ++ Sim.outputPlugins.map (fun Ptr => Step.eventUpdate Ptr (.int iEvent)
          (ops.SmoothSpheresColl Sim.world iEvent ((e1 + e2) / 2)
            ((d1 + d2) / 2 * ((d1 + d2) / 2))).1)) ∧
      S.eventCount = Sim.eventCount + 1 := by
  have he : (e1 + e2) * 0.5 = (e1 + e2) / 2 := by norm_num [div_eq_mul_inv]
  unfold IHardSphere.runEvent
  rw [pairDiameter_of_some self _ _ d1 d2 hd1 hd2, Property.get_of_some _ _ _ he1,
    Property.get_of_some _ _ _ he2]
  simp only [bind, Except.bind, pure, Except.pure, he]
  exact ⟨_, rfl, afterResolver ops Sim
    (ops.SmoothSpheresColl Sim.world iEvent ((e1 + e2) / 2) ((d1 + d2) / 2 * ((d1 + d2) / 2)))
    [p1.ID, p2.ID] (.int iEvent)⟩

/-- C7 (as amended): in every `runEvent` of `IHardSphere`,
`IRotatedParallelCubes` and `CLCylinder` the steps are, in this order: the
global event counter is incremented, the liouvillean resolver produces the
event data, the data goes to `signalParticleUpdate`, `scheduler.fullUpdate` is
called for the touched particles, and last the data is fanned out to the
`eventUpdate` of the output plugins in list order. -/
theorem runEvent_order [LinearOrderedField K] (ops : SimOps σ K D) (Sim : SimData σ K D)
    (hs : IHardSphere K) (cubes : IRotatedParallelCubes K) (cyl : CLCylinder K)
    (p1 p2 : Particle K) (iEvent : IntEvent K) (lEvent : LocalEvent K) (d1 d2 e1 e2 : K)
    (hd1 : hs._diameter.getProperty p1.ID = some d1)
    (hd2 : hs._diameter.getProperty p2.ID = some d2)
    (he1 : hs._e.getProperty p1.ID = some e1)
    (he2 : hs._e.getProperty p2.ID = some e2) :
    (∃ S, hs.runEvent ops Sim p1 p2 iEvent = .ok S ∧
      S.log = Sim.log ++ ([.countIncremented,
          .resolved (ops.SmoothSpheresColl Sim.world iEvent ((e1 + e2) / 2)
            ((d1 + d2) / 2 * ((d1 + d2) / 2))).1,
          .signalParticleUpdate (ops.SmoothSpheresColl Sim.world iEvent ((e1 + e2) / 2)
            ((d1 + d2) / 2 * ((d1 + d2) / 2))).1,
          .fullUpdate [p1.ID, p2.ID]]
        ++ Sim.outputPlugins.map (fun Ptr => Step.eventUpdate Ptr (.int iEvent)
          (ops.SmoothSpheresColl Sim.world iEvent ((e1 + e2) / 2)
            ((d1 + d2) / 2 * ((d1 + d2) / 2))).1))) ∧
    (cubes.runEvent ops Sim p1 p2 iEvent).log
      = Sim.log ++ ([.countIncremented,
          .resolved (ops.parallelCubeColl Sim.world iEvent cubes.e cubes.diameter
            cubes.Rotation).1,
          .signalParticleUpdate (ops.parallelCubeColl Sim.world iEvent cubes.e cubes.diameter
            cubes.Rotation).1,
          .fullUpdate [p1.ID, p2.ID]]
        ++ Sim.outputPlugins.map (fun Ptr => Step.eventUpdate Ptr (.int iEvent)
          (ops.parallelCubeColl Sim.world iEvent cubes.e cubes.diameter cubes.Rotation).1)) ∧
    (cyl.runEvent ops Sim p1 lEvent).log
      = Sim.log ++ ([.countIncremented,
          .resolved (ops.runCylinderWallCollision Sim.world p1 cyl.vPosition cyl.vNorm cyl.e).1,
          .signalParticleUpdate
            (ops.runCylinderWallCollision Sim.world p1 cyl.vPosition cyl.vNorm cyl.e).1,
          .fullUpdate [p1.ID]]
        ++ Sim.outputPlugins.map (fun Ptr => Step.eventUpdate Ptr (.loc lEvent)
          (ops.runCylinderWallCollision Sim.world p1 cyl.vPosition cyl.vNorm cyl.e).1)) := by
  obtain ⟨S, hS, hlog, _⟩ :=
    IHardSphere.hardSphere_runEvent_log ops hs Sim p1 p2 iEvent d1 d2 e1 e2 hd1 hd2 he1 he2
  exact ⟨⟨S, hS, hlog⟩, (IRotatedParallelCubes.cubes_runEvent_log ops cubes Sim p1 p2 iEvent).1,
    (CLCylinder.cylinder_runEvent_log ops cyl Sim p1 lEvent).1⟩

/-- C8: every `runEvent` of `IHardSphere` (for particles in the domain of its
properties), `IRotatedParallelCubes` and `CLCylinder` increases the global
event counter by exactly one, whatever the event and the particles are. -/
theorem runEvent_eventCount [LinearOrderedField K] (ops : SimOps σ K D) (Sim : SimData σ K D)
    (hs : IHardSphere K) (cubes : IRotatedParallelCubes K) (cyl : CLCylinder K)
    (p1 p2 : Particle K) (iEvent : IntEvent K) (lEvent : LocalEvent K) (d1 d2 e1 e2 : K)
    (hd1 : hs._diameter.getProperty p1.ID = some d1)
    (hd2 : hs._diameter.getProperty p2.ID = some d2)
    (he1 : hs._e.getProperty p1.ID = some e1)
    (he2 : hs._e.getProperty p2.ID = some e2) :
    (∃ S, hs.runEvent ops Sim p1 p2 iEvent = .ok S ∧ S.eventCount = Sim.eventCount + 1) ∧
    (cubes.runEvent ops Sim p1 p2 iEvent).eventCount = Sim.eventCount + 1 ∧
    (cyl.runEvent ops Sim p1 lEvent).eventCount = Sim.eventCount + 1 := by
  obtain ⟨S, hS, _, hcount⟩ :=
    IHardSphere.hardSphere_runEvent_log ops hs Sim p1 p2 iEvent d1 d2 e1 e2 hd1 hd2 he1 he2
  exact ⟨⟨S, hS, hcount⟩, (IRotatedParallelCubes.cubes_runEvent_log ops cubes Sim p1 p2 iEvent).2,
    (CLCylinder.cylinder_runEvent_log ops cyl Sim p1 lEvent).2⟩

/-- C10: `isInCell` is true for every cell origin and every cell dimension
vector, whatever the axis, origin and radius of the cylinder are. -/
theorem CLCylinder.isInCell_true (self : CLCylinder K) (Origin CellDim : Vector K) :
    self.isInCell Origin CellDim = true ∧ self.isInCell Origin CellDim ≠ false :=
  ⟨rfl, by simp [CLCylinder.isInCell]⟩

end RunEventProofs

/-! ## The `runEvent` theorems at a concrete simulation -/

/-- C7 (counterexample to the claim as stated): with two output plugins the
wall event of the cylinder takes its steps in the order counter (6), resolver
(3), `fullUpdate` (5), observers (4, 4), which is not the order of the driver
contract; the same holds for the two interactions. -/
theorem runEvent_order_counterexample :
    (demoCylinder.runEvent demoOps demoSim demoP1 demoLocalEvent).log.filterMap Step.specPhase
      = [6, 3, 5, 4, 4] ∧
    ¬ followsDriverContract (demoCylinder.runEvent demoOps demoSim demoP1 demoLocalEvent).log ∧
    ¬ followsDriverContract
      (demoCubes.runEvent demoOps demoSim demoP1 grazingP2 demoIntEvent).log ∧
    (∃ S, demoHardSphere.runEvent demoOps demoSim demoP1 grazingP2 demoIntEvent = .ok S ∧
      ¬ followsDriverContract S.log) := by
  refine ⟨by decide, by decide, by decide, ⟨_, rfl, by decide⟩⟩

/-- The steps of the three `runEvent` bodies on the concrete simulation. -/
theorem runEvent_order_witness :
    (demoCylinder.runEvent demoOps demoSim demoP1 demoLocalEvent).log
      = [.countIncremented, .resolved 7, .signalParticleUpdate 7, .fullUpdate [0],
         .eventUpdate 0 (.loc demoLocalEvent) 7, .eventUpdate 1 (.loc demoLocalEvent) 7] ∧
    (demoCubes.runEvent demoOps demoSim demoP1 grazingP2 demoIntEvent).log
      = [.countIncremented, .resolved 7, .signalParticleUpdate 7, .fullUpdate [0, 1],
         .eventUpdate 0 (.int demoIntEvent) 7, .eventUpdate 1 (.int demoIntEvent) 7] :=
  have h := runEvent_order demoOps demoSim demoHardSphere demoCubes demoCylinder demoP1 grazingP2
    demoIntEvent demoLocalEvent 1 1 1 1 rfl rfl rfl rfl
  ⟨h.2.2, h.2.1⟩

/-- The counter after each of the three `runEvent` bodies on the concrete
simulation, which starts at `0`. -/
theorem runEvent_eventCount_witness :
    (demoCubes.runEvent demoOps demoSim demoP1 grazingP2 demoIntEvent).eventCount = 0 + 1 ∧
    (demoCylinder.runEvent demoOps demoSim demoP1 demoLocalEvent).eventCount = 0 + 1 ∧
    (∃ S, demoHardSphere.runEvent demoOps demoSim demoP1 grazingP2 demoIntEvent = .ok S ∧
      S.eventCount = 0 + 1) :=
  have h := runEvent_eventCount demoOps demoSim demoHardSphere demoCubes demoCylinder demoP1
    grazingP2 demoIntEvent demoLocalEvent 1 1 1 1 rfl rfl rfl rfl
  ⟨h.2.1, h.2.2, h.1⟩

/-! ## Decimal numerals: writing and reading back -/

theorem digitVal_digitChar (d : Nat) (h : d < 10) : digitVal (Nat.digitChar d) = some d := by
  interval_cases d <;> decide

theorem parseDigits_append (cs ds : List Char) (acc : Nat) :
    parseDigits (cs ++ ds) acc = (parseDigits cs acc).bind (fun a => parseDigits ds a) := by
  induction cs generalizing acc with
  | nil => simp [parseDigits]
  | cons c rest ih =>
    simp only [List.cons_append, parseDigits]
    cases digitVal c with
    | none => simp
    | some d => simp [ih]

/-- The digits that `toString` produces for `n` read back as `n`. -/
theorem toDigitsCore_parse (fuel : Nat) : ∀ (n : Nat) (ds : List Char), n < fuel →
    ∃ cs, Nat.toDigitsCore 10 fuel n ds = cs ++ ds ∧ cs ≠ [] ∧ parseDigits cs 0 = some n := by
  induction fuel with
  | zero => intro n ds h; omega
  | succ fuel ih =>
    intro n ds h
    simp only [Nat.toDigitsCore]
    by_cases h0 : n / 10 = 0
    · refine ⟨[Nat.digitChar (n % 10)], by simp [h0], by simp, ?_⟩
      have hn : n % 10 = n := by omega
      have hd := digitVal_digitChar (n % 10) (Nat.mod_lt _ (by decide))
      rw [hn] at hd
      simp [parseDigits, hn, hd]
    · obtain ⟨cs, hcs, _, hp⟩ := ih (n / 10) (Nat.digitChar (n % 10) :: ds) (by omega)
      refine ⟨cs ++ [Nat.digitChar (n % 10)], by simp [h0, hcs], by simp, ?_⟩
      rw [parseDigits_append, hp]
      simp only [Option.some_bind, parseDigits,
        digitVal_digitChar (n % 10) (Nat.mod_lt _ (by decide))]
      congr 1
      omega

/-- An `unsigned long` written by the XML writer is read back by
`as<unsigned long>()` and by `lexical_cast<unsigned long>`. -/
theorem as_ulong_toString (n : Nat) (h : n < ULONG_SIZE) : as_ulong (toString n) = .ok n := by
  obtain ⟨cs, hcs, hne, hp⟩ := toDigitsCore_parse (n + 1) n [] (Nat.lt_succ_self n)
  have hdata : (toString n).data = cs := by
    show (Nat.toDigits 10 n) = cs
    simpa [Nat.toDigits] using hcs
  unfold as_ulong
  rw [hdata]
  cases cs with
  | nil => exact absurd rfl hne
  | cons c rest => simp [hp, h]

/-! ## Ranges: round trip and `CRSingle::isInRange` -/

theorem CRSingle.single_load_outputXML {K : Type} (init r : CRSingle) (hr : r.ID < ULONG_SIZE) :
    CRSingle.load init (XMLNode.mk (r.outputXML : List (String × Value K)) []) = ⟨r, none⟩ := by
  simp [CRSingle.load, CRSingle.outputXML, XMLNode.getAttribute, XMLNode.attributes,
    List.lookup, attrIs, throwUnless, Assigned.andThen, lexical_cast_ulong,
    as_ulong_toString r.ID hr, catchBadCast, assign]

theorem C2RIntraChains.fromXML_outputXML (c : C2RIntraChains) (hwf : c.wf) :
    C2RIntraChains.fromXML (.mk c.outputXML [])
      = C2RIntraChains.construct c.range1 c.range2 c.interval := by
  apply fromXML_eq_construct
  · simp [Node.getAttribute, Node.attributes, C2RIntraChains.outputXML, List.lookup]
  · simp [Node.getAttribute, Node.attributes, C2RIntraChains.outputXML, List.lookup,
      bind, Except.bind, as_ulong_toString c.range1 hwf.1]
  · simp [Node.getAttribute, Node.attributes, C2RIntraChains.outputXML, List.lookup,
      bind, Except.bind, as_ulong_toString c.range2 hwf.2.1]
  · simp [Node.getAttribute, Node.attributes, C2RIntraChains.outputXML, List.lookup,
      bind, Except.bind, as_ulong_toString c.interval hwf.2.2]

/-- C13: for every `CRSingle` (its `ID` an `unsigned long`), `operator<<` on the
attributes that `outputXML` writes returns and yields the same `ID`, whatever
the object held before; for every `C2RIntraChains` that was constructed
successfully, the XML constructor on the attributes that `outputXML` writes
succeeds with the same `range1`, `range2`, `interval`, so that the reloaded
range answers `isInRange` identically on every input. -/
theorem range_roundtrip (K : Type) (init r : CRSingle) (c : C2RIntraChains)
    (hr : r.ID < ULONG_SIZE) (hwf : c.wf)
    (hacc : C2RIntraChains.construct c.range1 c.range2 c.interval = .ok c) :
    CRSingle.load init (XMLNode.mk (r.outputXML : List (String × Value K)) []) = ⟨r, none⟩ ∧
    CRSingle.fromXML (XMLNode.mk (r.outputXML : List (String × Value K)) []) = .ok r ∧
    C2RIntraChains.fromXML (.mk c.outputXML []) = .ok c ∧
    (∀ c', C2RIntraChains.fromXML (.mk c.outputXML []) = .ok c' →
      ∀ a b, c'.isInRange a b = c.isInRange a b) := by
  have h1 := CRSingle.single_load_outputXML (K := K) init r hr
  have h2 : CRSingle.fromXML (XMLNode.mk (r.outputXML : List (String × Value K)) []) = .ok r := by
    unfold CRSingle.fromXML
    rw [CRSingle.single_load_outputXML (K := K) { ID := 0 } r hr]
  have h3 : C2RIntraChains.fromXML (.mk c.outputXML []) = .ok c := by
    rw [C2RIntraChains.fromXML_outputXML c hwf, hacc]
  refine ⟨h1, h2, h3, ?_⟩
  intro c' hc' a b
  rw [h3] at hc'
  cases hc'
  rfl

/-- The range `[0, 9]` in chains of `5` and the single ID `7`. -/
theorem range_roundtrip_witness :
    CRSingle.fromXML (XMLNode.mk (({ ID := 7 } : CRSingle).outputXML :
      List (String × Value ℚ)) []) = .ok { ID := 7 } ∧
    C2RIntraChains.fromXML (.mk (⟨0, 9, 5⟩ : C2RIntraChains).outputXML []) = .ok ⟨0, 9, 5⟩ :=
  have h := range_roundtrip ℚ { ID := 0 } { ID := 7 } ⟨0, 9, 5⟩ (by decide) (by decide) (by decide)
  ⟨h.2.1, h.2.2.1⟩

/-- C16: `isInRange(p)` is true exactly when the particle's ID is the range's
`ID`; the answer is the same for two particles with the same ID, whatever
their positions and velocities are, so the one ID in range is `ID`. -/
theorem CRSingle.isInRange_iff {K : Type} (self : CRSingle) (part : Particle K) :
    (self.isInRange part = true ↔ part.ID = self.ID) ∧
    (self.isInRange part = false ↔ part.ID ≠ self.ID) ∧
    (∀ other : Particle K, other.ID = part.ID → self.isInRange other = self.isInRange part) ∧
    (∀ ID : Nat, (∀ p : Particle K, p.ID = ID → self.isInRange p = true) → part.ID = ID →
      ID = self.ID) := by
  refine ⟨?_, ?_, ?_, ?_⟩
  · simp [CRSingle.isInRange]
  · simp [CRSingle.isInRange]
  · intro other h
    simp [CRSingle.isInRange, h]
  · intro ID hall hp
    have := hall part hp
    simp only [CRSingle.isInRange, ite_eq_left_iff, Bool.false_eq_true, imp_false,
      Decidable.not_not] at this
    rw [← hp, this]

/-! ## Loaders: the discriminator -/

theorem Assigned.andThen_failed {α : Type} (a : Assigned α) (next : α → Assigned α)
    (h : a.failure ≠ none) : a.andThen next = a := by
  unfold Assigned.andThen
  cases hf : a.failure with
  | none => exact absurd hf h
  | some e => rfl

/-- A failed comparison of the discriminator leaves the object alone. -/
theorem throwUnless_differs {α K : Type} (a : Option (Value K)) (expected msg : String)
    (self : α) (h : a ≠ some (.text expected)) :
    (throwUnless (attrIs a expected) msg self).failure ≠ none ∧
    (throwUnless (attrIs a expected) msg self).obj = self := by
  cases a with
  | none => simp [attrIs, throwUnless]
  | some v =>
    cases v with
    | num x => simp [attrIs, throwUnless]
    | text t =>
      have ht : (t == expected) = false := by
        rw [beq_eq_false_iff_ne]
        intro heq; apply h; rw [heq]
      simp only [attrIs, throwUnless, ht]
      simp

/-- C14: a loader that meets another discriminator fails before it assigns to
any member.  `IHardSphere::operator<<` fails when the `Type` attribute is not
`"HardSphere"`, `IRotatedParallelCubes::operator<<` when `Type` is not
`"RotatedParallelCubes"`, `CRSingle::operator<<` when `Range` is not
`"Single"`; in each case the object (diameter, elasticity, name, range, ID) is
as it was before the call. -/
theorem load_rejects_other_discriminator {R R2 K : Type} [Field K]
    (lops : HardSphereLoadOps R K) (hs : WithRange R (IHardSphere K)) (XML : Node)
    (unitLength : K) (rops : RangeOps R2 K) (cubes : WithRange R2 (IRotatedParallelCubes K))
    (single : CRSingle) (XMLold : XMLNode K) :
    (XML.getAttribute "Type" ≠ .ok "HardSphere" →
      (IHardSphere.load lops hs XML).failure ≠ none ∧ (IHardSphere.load lops hs XML).obj = hs) ∧
    (XMLold.getAttribute "Type" ≠ some (.text "RotatedParallelCubes") →
      (IRotatedParallelCubes.load unitLength rops cubes XMLold).failure ≠ none ∧
      (IRotatedParallelCubes.load unitLength rops cubes XMLold).obj = cubes) ∧
    (XMLold.getAttribute "Range" ≠ some (.text "Single") →
      (single.load XMLold).failure ≠ none ∧ (single.load XMLold).obj = single) := by
  refine ⟨?_, ?_, ?_⟩
  · intro h
    have hX : (throwUnless ((XML.getAttribute "Type").map (fun t => t == "HardSphere"))
          "Attempting to load Hardsphere from non hardsphere entry" hs).failure ≠ none ∧
        (throwUnless ((XML.getAttribute "Type").map (fun t => t == "HardSphere"))
          "Attempting to load Hardsphere from non hardsphere entry" hs).obj = hs := by
      cases hT : XML.getAttribute "Type" with
      | error e => simp [throwUnless, Except.map]
      | ok t =>
        have ht : (t == "HardSphere") = false := by
          rw [beq_eq_false_iff_ne]
          intro heq; apply h; rw [hT, heq]
        simp only [throwUnless, Except.map, ht]
        simp
    unfold IHardSphere.load
    rw [Assigned.andThen_failed _ _ hX.1]
    exact hX
  · intro h
    unfold IRotatedParallelCubes.load
    rw [Assigned.andThen_failed _ _ (throwUnless_differs _ _ _ cubes h).1]
    exact throwUnless_differs _ _ _ cubes h
  · intro h
    unfold CRSingle.load
    rw [Assigned.andThen_failed _ _ (throwUnless_differs _ _ _ single h).1]
    exact throwUnless_differs _ _ _ single h

/-! ## Round trips of the cubes and of the cylinder wall -/

theorem lexical_cast_bool_boolText {K : Type} (b : Bool) :
    lexical_cast_bool (some (Value.text (boolText b) : Value K)) = .ok b := by
  cases b <;> simp [lexical_cast_bool, boolText]

theorem Vector.vector_ofXML_toXML {K : Type} (v : Vector K) : Vector.ofXML v.toXML = .ok v := by
  simp [Vector.ofXML, Vector.toXML, XMLNode.getAttribute, XMLNode.attributes, List.lookup,
    lexical_cast_double, bind, Except.bind, pure, Except.pure]

theorem Matrix.matrix_ofXML_toXML {K : Type} (M : Matrix K) : Matrix.ofXML M.toXML = .ok M := by
  simp [Matrix.ofXML, Matrix.toXML, XMLNode.getAttribute, XMLNode.attributes, List.lookup,
    lexical_cast_double, bind, Except.bind, pure, Except.pure]

/-- C12: with a non-zero unit length, `operator<<` on the element that
`outputXML` writes for a rotated-parallel-cubes interaction `x` returns, and
the object then has the diameter, elasticity `e`, name, range and `Rotation`
of `x` (the range as far as the range factory reads back what the range
wrote); `ID`, which is not written, keeps its value. -/
theorem cubes_roundtrip {R K : Type} [Field K] (unitLength : K) (rops : RangeOps R K)
    (init x : WithRange R (IRotatedParallelCubes K)) (hU : unitLength ≠ 0)
    (hrange : rops.loadClass (IRotatedParallelCubes.outputXML unitLength rops x) = .ok x.range) :
    (IRotatedParallelCubes.load unitLength rops init
        (IRotatedParallelCubes.outputXML unitLength rops x)).failure = none ∧
    (IRotatedParallelCubes.load unitLength rops init
        (IRotatedParallelCubes.outputXML unitLength rops x)).obj
      = { range := x.range,
          members := { Rotation := x.members.Rotation, diameter := x.members.diameter,
                       e := x.members.e, intName := x.members.intName,
                       ID := init.members.ID } } := by
  have hT : XMLNode.getAttribute (IRotatedParallelCubes.outputXML unitLength rops x) "Type"
      = some (.text "RotatedParallelCubes") := by
    simp [IRotatedParallelCubes.outputXML, XMLNode.getAttribute, XMLNode.attributes, List.lookup]
  have hD : XMLNode.getAttribute (IRotatedParallelCubes.outputXML unitLength rops x) "Diameter"
      = some (.num (x.members.diameter / unitLength)) := by
    simp [IRotatedParallelCubes.outputXML, XMLNode.getAttribute, XMLNode.attributes, List.lookup]
  have hE : XMLNode.getAttribute (IRotatedParallelCubes.outputXML unitLength rops x) "Elasticity"
      = some (.num x.members.e) := by
    simp [IRotatedParallelCubes.outputXML, XMLNode.getAttribute, XMLNode.attributes, List.lookup]
  have hN : XMLNode.getAttribute (IRotatedParallelCubes.outputXML unitLength rops x) "Name"
      = some (.text x.members.intName) := by
    simp [IRotatedParallelCubes.outputXML, XMLNode.getAttribute, XMLNode.attributes, List.lookup]
  have hC : XMLNode.getChildNode (IRotatedParallelCubes.outputXML unitLength rops x) "Rotation"
      = x.members.Rotation.toXML := by
    simp [IRotatedParallelCubes.outputXML, XMLNode.getChildNode, XMLNode.children, List.lookup]
  have hd : unitLength * (x.members.diameter / unitLength) = x.members.diameter := by
    field_simp
  unfold IRotatedParallelCubes.load
  rw [hT, hrange, hD, hE, hN, hC, Matrix.matrix_ofXML_toXML]
  simp [attrIs, throwUnless, Assigned.andThen, assign, lexical_cast_double, catchBadCast,
    attrText, hd]

/-- The cubes of diameter `2` with a quarter-turn rotation, unit length `4`. -/
theorem cubes_roundtrip_witness :
    (IRotatedParallelCubes.load 4 (allRangeOps ℚ) demoRotatedCubes
        (IRotatedParallelCubes.outputXML 4 (allRangeOps ℚ) demoRotatedCubes)).failure = none ∧
    (IRotatedParallelCubes.load 4 (allRangeOps ℚ) demoRotatedCubes
        (IRotatedParallelCubes.outputXML 4 (allRangeOps ℚ) demoRotatedCubes)).obj.members.diameter
      = 2 :=
  have h := cubes_roundtrip 4 (allRangeOps ℚ) demoRotatedCubes demoRotatedCubes (by norm_num)
    (by simp [allRangeOps, IRotatedParallelCubes.outputXML, XMLNode.getAttribute,
      XMLNode.attributes, List.lookup, attrIs])
  ⟨h.1, by rw [h.2]; rfl⟩

/-- What `operator<<` makes of the element that `outputXML` wrote for the wall
`w`: every member is read back, the axis divided by its length. -/
theorem CLCylinder.cylinder_load_outputXML {R K : Type} [Field K] [DecidableEq K] (unitLength : K)
    (sqrt : K → K) (rops : RangeOps R K) (init w : WithRange R (CLCylinder K))
    (hU : unitLength ≠ 0)
    (hrange : rops.loadClass (CLCylinder.outputXML unitLength rops w) = .ok w.range) :
    CLCylinder.load unitLength sqrt rops init (CLCylinder.outputXML unitLength rops w)
      = ⟨{ range := w.range,
           members := { vNorm := w.members.vNorm.divide (w.members.vNorm.nrm sqrt),
                        vPosition := w.members.vPosition,
                        e := w.members.e, radius := w.members.radius,
                        render := w.members.render, localName := w.members.localName,
                        ID := init.members.ID } }, none⟩ := by
  have hE : XMLNode.getAttribute (CLCylinder.outputXML unitLength rops w) "Elasticity"
      = some (.num w.members.e) := by
    simp [CLCylinder.outputXML, XMLNode.getAttribute, XMLNode.attributes, List.lookup]
  have hR : XMLNode.getAttribute (CLCylinder.outputXML unitLength rops w) "Radius"
      = some (.num (w.members.radius / unitLength)) := by
    simp [CLCylinder.outputXML, XMLNode.getAttribute, XMLNode.attributes, List.lookup]
  have hB : XMLNode.getAttribute (CLCylinder.outputXML unitLength rops w) "Render"
      = some (.text (boolText w.members.render)) := by
    simp [CLCylinder.outputXML, XMLNode.getAttribute, XMLNode.attributes, List.lookup]
  have hN : XMLNode.getAttribute (CLCylinder.outputXML unitLength rops w) "Name"
      = some (.text w.members.localName) := by
    simp [CLCylinder.outputXML, XMLNode.getAttribute, XMLNode.attributes, List.lookup]
  have hC1 : XMLNode.getChildNode (CLCylinder.outputXML unitLength rops w) "Norm"
      = w.members.vNorm.toXML := by
    simp [CLCylinder.outputXML, XMLNode.getChildNode, XMLNode.children, List.lookup]
  have hC2 : XMLNode.getChildNode (CLCylinder.outputXML unitLength rops w) "Origin"
      = (w.members.vPosition.divide unitLength).toXML := by
    simp [CLCylinder.outputXML, XMLNode.getChildNode, XMLNode.children, List.lookup]
  have hr : w.members.radius / unitLength * unitLength = w.members.radius := by
    field_simp
  have hp : (w.members.vPosition.divide unitLength).scale unitLength = w.members.vPosition := by
    cases hv : w.members.vPosition with
    | mk x y z =>
      simp only [Vector.divide, Vector.scale, Vector.mk.injEq]
      refine ⟨by field_simp, by field_simp, by field_simp⟩
  unfold CLCylinder.load
  rw [hrange, hE, hR, hB, hN, hC1, hC2, lexical_cast_bool_boolText, Vector.vector_ofXML_toXML,
    Vector.vector_ofXML_toXML]
  simp [Assigned.andThen, assign, lexical_cast_double, catchBadCast, attrText,
    CLCylinder.normalise, hr, hp]

theorem sqrt_four : Real.sqrt 4 = 2 := by
  rw [show (4 : ℝ) = 2 * 2 by norm_num]
  exact Real.sqrt_mul_self (by norm_num)

/-- The element written for a wall of the particle `7` reads back as that range. -/
theorem singleRange_of_wall {K : Type} [Field K] (unitLength : K)
    (w : WithRange CRSingle (CLCylinder K)) (hID : w.range.ID < ULONG_SIZE) :
    (singleRangeOps K).loadClass (CLCylinder.outputXML unitLength (singleRangeOps K) w)
      = .ok w.range := by
  simp [singleRangeOps, CRSingle.fromXML, CRSingle.load, CLCylinder.outputXML,
    CRSingle.outputXML, XMLNode.getAttribute, XMLNode.attributes, List.lookup, attrIs,
    throwUnless, Assigned.andThen, lexical_cast_ulong, as_ulong_toString w.range.ID hID,
    catchBadCast, assign]

/-- C11 (as amended): for a cylinder wall `w` whose axis `vNorm` has Euclidean
length `1`, over the reals and with a non-zero unit length, `operator<<` on
the element that `outputXML` writes for `w` returns, and the object then has
the elasticity, radius, render flag, name, range, origin `vPosition` and axis
`vNorm` of `w` (the range as far as the range factory reads back what the
range wrote); `ID`, which is not written, keeps its value. -/
theorem cylinder_roundtrip {R : Type} (unitLength : ℝ) (rops : RangeOps R ℝ)
    (init w : WithRange R (CLCylinder ℝ)) (hU : unitLength ≠ 0)
    (hrange : rops.loadClass (CLCylinder.outputXML unitLength rops w) = .ok w.range)
    (hunit : w.members.vNorm.nrm Real.sqrt = 1) :
    (CLCylinder.load unitLength Real.sqrt rops init
        (CLCylinder.outputXML unitLength rops w)).failure = none ∧
    (CLCylinder.load unitLength Real.sqrt rops init
        (CLCylinder.outputXML unitLength rops w)).obj
      = { range := w.range,
          members := { vNorm := w.members.vNorm, vPosition := w.members.vPosition,
                       e := w.members.e, radius := w.members.radius,
                       render := w.members.render, localName := w.members.localName,
                       ID := init.members.ID } } := by
  have hdiv : w.members.vNorm.divide (w.members.vNorm.nrm Real.sqrt) = w.members.vNorm := by
    rw [hunit]
    cases w.members.vNorm with
    | mk x y z => simp [Vector.divide]
  rw [CLCylinder.cylinder_load_outputXML unitLength Real.sqrt rops init w hU hrange, hdiv]
  exact ⟨rfl, rfl⟩

/-- The wall about the `z` axis for the particle `7`, unit length `4`. -/
theorem cylinder_roundtrip_witness :
    (CLCylinder.load 4 Real.sqrt (singleRangeOps ℝ) (demoWall ℝ)
        (CLCylinder.outputXML 4 (singleRangeOps ℝ) (demoWall ℝ))).failure = none ∧
    (CLCylinder.load 4 Real.sqrt (singleRangeOps ℝ) (demoWall ℝ)
        (CLCylinder.outputXML 4 (singleRangeOps ℝ) (demoWall ℝ))).obj.members.vNorm
      = ⟨0, 0, 1⟩ :=
  have h := cylinder_roundtrip 4 (singleRangeOps ℝ) (demoWall ℝ) (demoWall ℝ) (by norm_num)
    (singleRange_of_wall 4 (demoWall ℝ) (by decide))
    (by simp [demoWall, Vector.nrm, Vector.nrm2, Vector.dot])
  ⟨h.1, by rw [h.2]; rfl⟩

/-- C11 (counterexample to the claim as stated): the wall whose axis vector is
`(0, 0, 2)` is written with that vector, and loading the element divides it by
its length: the loaded axis is `(0, 0, 1)`, not the axis of the wall written. -/
theorem cylinder_roundtrip_counterexample :
    (CLCylinder.load 1 Real.sqrt (singleRangeOps ℝ) longAxisWall
        (CLCylinder.outputXML 1 (singleRangeOps ℝ) longAxisWall)).failure = none ∧
    (CLCylinder.load 1 Real.sqrt (singleRangeOps ℝ) longAxisWall
        (CLCylinder.outputXML 1 (singleRangeOps ℝ) longAxisWall)).obj.members.vNorm
      = ⟨0, 0, 1⟩ ∧
    (CLCylinder.load 1 Real.sqrt (singleRangeOps ℝ) longAxisWall
        (CLCylinder.outputXML 1 (singleRangeOps ℝ) longAxisWall)).obj.members.vNorm
      ≠ longAxisWall.members.vNorm := by
  have hnrm : longAxisWall.members.vNorm.nrm Real.sqrt = 2 := by
    simp only [longAxisWall, Vector.nrm, Vector.nrm2, Vector.dot]
    rw [show (0 : ℝ) * 0 + 0 * 0 + 2 * 2 = 4 by norm_num, sqrt_four]
  have h := CLCylinder.cylinder_load_outputXML 1 Real.sqrt (singleRangeOps ℝ) longAxisWall longAxisWall
    (by norm_num) (singleRange_of_wall 1 longAxisWall (by decide))
  rw [h, hnrm]
  refine ⟨rfl, ?_, ?_⟩
  · simp [longAxisWall, Vector.divide]
  · simp [longAxisWall, Vector.divide]

/-- C15 (the code at the input where the claim fails): an element whose `Type`
is `"HardSphere"` and whose other content is that of a cylinder wall is loaded
by `operator<<`, and by the XML constructor, into a wall; the `Type` attribute
is never compared. -/
theorem cylinder_loads_other_type :
    (otherTypeWallXML ℝ).getAttribute "Type" = some (.text "HardSphere") ∧
    (otherTypeWallXML ℝ).getAttribute "Type" ≠ some (.text "CylinderWall") ∧
    (CLCylinder.load 1 Real.sqrt (singleRangeOps ℝ) longAxisWall (otherTypeWallXML ℝ)).failure
      = none ∧
    CLCylinder.fromXML 1 Real.sqrt (singleRangeOps ℝ) longAxisWall (otherTypeWallXML ℝ)
      = .ok (demoWall ℝ) := by
  have hload : CLCylinder.load 1 Real.sqrt (singleRangeOps ℝ) longAxisWall (otherTypeWallXML ℝ)
      = ⟨demoWall ℝ, none⟩ := by
    have h7 : as_ulong "7" = .ok 7 := by decide
    simp [CLCylinder.load, otherTypeWallXML, singleRangeOps, CRSingle.fromXML, CRSingle.load,
      XMLNode.getAttribute, XMLNode.getChildNode, XMLNode.attributes, XMLNode.children,
      List.lookup, attrIs, throwUnless, Assigned.andThen, lexical_cast_ulong, h7,
      lexical_cast_double, lexical_cast_bool, catchBadCast, assign, attrText, Vector.ofXML,
      bind, Except.bind, pure, Except.pure, CLCylinder.normalise, Vector.nrm, Vector.nrm2,
      Vector.dot, Vector.divide, Vector.scale, demoWall, longAxisWall]
  refine ⟨by simp [otherTypeWallXML, XMLNode.getAttribute, XMLNode.attributes, List.lookup],
    by simp [otherTypeWallXML, XMLNode.getAttribute, XMLNode.attributes, List.lookup], ?_, ?_⟩
  · rw [hload]
  · unfold CLCylinder.fromXML
    rw [hload]

/-! ## `IRotatedParallelCubes::getEvent` -/

section CubesGetEvent

variable {σ K D : Type} [Field K]

end CubesGetEvent

/-- C19 (the claim at a `Rotation` that is not orthonormal): with the
`Rotation` that doubles `x` and a root finder that tests the approach by the
`rvdot` of the pair data, the pair with `rij = (-1, 3, 0)`, `vij = (2, 1, 0)`
gets no event, its `rvdot = 1` being the one of before the rotation, while
`getEvent` with the identity rotation on the pair with `(R rij, R vij)`,
whose `rvdot` is `-5`, returns a `CORE` event at time `1/4`. -/
theorem cubes_getEvent_frame_counterexample :
    stretchQ1.ID = stretchP1.ID ∧
    (CPDData.ofPair rvdotOps demoSim stretchQ1 cubeP2).rij
      = stretchedCubes.Rotation.mulVec (CPDData.ofPair rvdotOps demoSim stretchP1 cubeP2).rij ∧
    (CPDData.ofPair rvdotOps demoSim stretchQ1 cubeP2).vij
      = stretchedCubes.Rotation.mulVec (CPDData.ofPair rvdotOps demoSim stretchP1 cubeP2).vij ∧
    stretchedCubes.getEvent rvdotOps demoSim stretchP1 cubeP2
      = ⟨0, 1, HUGE_VAL, .NONE, 3⟩ ∧
    ({ stretchedCubes with Rotation := Matrix.identity }).getEvent rvdotOps demoSim
        stretchQ1 cubeP2
      = ⟨0, 1, (((1 / 4 : ℚ)) : WithTop ℚ), .CORE, 3⟩ ∧
    (stretchedCubes.getEvent rvdotOps demoSim stretchP1 cubeP2).CType
      ≠ (({ stretchedCubes with Rotation := Matrix.identity }).getEvent rvdotOps demoSim
          stretchQ1 cubeP2).CType := by
  have h1 : stretchedCubes.getEvent rvdotOps demoSim stretchP1 cubeP2
      = ⟨0, 1, HUGE_VAL, .NONE, 3⟩ := by
    simp only [IRotatedParallelCubes.getEvent, CPDData.ofPair, rvdotOps, demoOps, stretchedCubes,
      stretchP1, cubeP2, Vector.sub, Vector.dot, Vector.nrm2, Matrix.mulVec]
    norm_num
  have h2 : ({ stretchedCubes with Rotation := Matrix.identity }).getEvent rvdotOps demoSim
        stretchQ1 cubeP2
      = ⟨0, 1, (((1 / 4 : ℚ)) : WithTop ℚ), .CORE, 3⟩ := by
    simp only [IRotatedParallelCubes.getEvent, CPDData.ofPair, rvdotOps, demoOps, stretchedCubes,
      stretchQ1, cubeP2, Vector.sub, Vector.dot, Vector.nrm2, Matrix.mulVec, Matrix.identity]
    norm_num
  refine ⟨rfl, ?_, ?_, h1, h2, ?_⟩
  · simp only [CPDData.ofPair, rvdotOps, demoOps, stretchedCubes, stretchQ1, stretchP1, cubeP2,
      Vector.sub, Matrix.mulVec, Vector.mk.injEq]
    norm_num
  · simp only [CPDData.ofPair, rvdotOps, demoOps, stretchedCubes, stretchQ1, stretchP1, cubeP2,
      Vector.sub, Matrix.mulVec, Vector.mk.injEq]
    norm_num
  · rw [h1, h2]
    decide

/-- An element of type `"SquareWell"` is rejected by the three loaders, which
leave their objects alone. -/
theorem load_rejects_other_discriminator_witness :
    (IHardSphere.load demoLoadOps ⟨(), demoHardSphere⟩
        (Node.mk [("Type", "SquareWell"), ("Name", "Bulk")] [])).failure ≠ none ∧
    (IRotatedParallelCubes.load 1 (allRangeOps ℚ) demoRotatedCubes
        (XMLNode.mk [("Type", .text "SquareWell"), ("Range", .text "All")] [])).obj
      = demoRotatedCubes ∧
    (CRSingle.load { ID := 7 }
        (XMLNode.mk [("Type", .text "SquareWell"), ("Range", .text "All")] []
          : XMLNode ℚ)).obj = { ID := 7 } :=
  have h := load_rejects_other_discriminator demoLoadOps ⟨(), demoHardSphere⟩
    (Node.mk [("Type", "SquareWell"), ("Name", "Bulk")] []) 1 (allRangeOps ℚ) demoRotatedCubes
    { ID := 7 } (XMLNode.mk [("Type", .text "SquareWell"), ("Range", .text "All")] [])
  ⟨(h.1 (by decide)).1, (h.2.1 (by decide)).2, (h.2.2 (by decide)).2⟩

/-! ## `SpDumbbells::updateColorObj` -/

/-- C20 (the code at the input where the claim fails): for a species of one
dumbbell the colour buffer holds two colours, 8 bytes, and the second write is
enqueued at byte offset `2 * 1 * 4 = 8` with 4 bytes, so it covers bytes 8 to
11 and not the entry `1` (bytes 4 to 7) of the buffer.  For every number `N ≥ 1`
of particles the offset is the size of the whole `2N`-entry buffer, and offset
plus size exceeds it. -/
theorem SpDumbbells.updateColorObj_out_of_bounds :
    SpDumbbells.updateColorObj 1 = { offset := 8, size := 4 } ∧
    SpDumbbells.colorBufferBytes 1 = 8 ∧
    ¬ (SpDumbbells.updateColorObj 1).inBounds (SpDumbbells.colorBufferBytes 1) ∧
    (SpDumbbells.updateColorObj 1).offset ≠ 1 * sizeof_cl_uchar4 ∧
    (∀ N : Nat, 0 < N → 12 * N < ULONG_SIZE →
      (SpDumbbells.updateColorObj N).offset = SpDumbbells.colorBufferBytes N ∧
      (SpDumbbells.updateColorObj N).offset = 2 * N * sizeof_cl_uchar4 ∧
      ¬ (SpDumbbells.updateColorObj N).inBounds (SpDumbbells.colorBufferBytes N)) := by
  refine ⟨by decide, by decide, by decide, by decide, ?_⟩
  intro N hN hlt
  simp only [SpDumbbells.updateColorObj, SpDumbbells.colorBufferBytes, BufferWrite.inBounds,
    umul, sizeof_cl_uchar4, ULONG_SIZE] at *
  exact ⟨trivial, by omega, by omega⟩

/-! ## `C2RIntraChains::isInRange` as a relation -/

/-- C23: for `interval > 0`, `isInRange` is reflexive on the IDs of
`[range1, range2]`, symmetric on all IDs and transitive; an ID outside
`[range1, range2]` is in range with no ID, not even with itself. -/
theorem isInRange_equivalence (c : C2RIntraChains) (a b x : Nat) (hi : 0 < c.interval) :
    (c.range1 ≤ a → a ≤ c.range2 → c.isInRange a a = .ok true) ∧
    c.isInRange a b = c.isInRange b a ∧
    (c.isInRange a b = .ok true → c.isInRange b x = .ok true → c.isInRange a x = .ok true) ∧
    (a < c.range1 ∨ c.range2 < a →
      c.isInRange a b = .ok false ∧ c.isInRange b a = .ok false ∧
      c.isInRange a a = .ok false) := by
  have hfalse : ∀ p q : Nat, (p < c.range1 ∨ c.range2 < p ∨ q < c.range1 ∨ c.range2 < q) →
      c.isInRange p q = .ok false := by
    intro p q hout
    rw [isInRange_eq_ok c p q hi]
    congr 1
    rw [Bool.eq_false_iff]
    intro h
    simp only [Bool.and_eq_true, decide_eq_true_eq, ge_iff_le] at h
    omega
  refine ⟨?_, ?_, ?_, ?_⟩
  · intro h1 h2
    rw [isInRange_eq_ok c a a hi]
    simp [h1, h2]
  · rw [isInRange_eq_ok c a b hi, isInRange_eq_ok c b a hi]
    congr 1
    rw [Bool.eq_iff_iff]
    simp only [Bool.and_eq_true, beq_iff_eq, decide_eq_true_eq, ge_iff_le]
    constructor
    · rintro ⟨⟨⟨⟨hq, h1⟩, h2⟩, h3⟩, h4⟩
      exact ⟨⟨⟨⟨hq.symm, h3⟩, h4⟩, h1⟩, h2⟩
    · rintro ⟨⟨⟨⟨hq, h1⟩, h2⟩, h3⟩, h4⟩
      exact ⟨⟨⟨⟨hq.symm, h3⟩, h4⟩, h1⟩, h2⟩
  · intro hab hbx
    rw [isInRange_eq_ok c a b hi] at hab
    rw [isInRange_eq_ok c b x hi] at hbx
    rw [isInRange_eq_ok c a x hi]
    simp only [Except.ok.injEq, Bool.and_eq_true, beq_iff_eq, decide_eq_true_eq,
      ge_iff_le] at hab hbx ⊢
    obtain ⟨⟨⟨⟨hq1, _⟩, _⟩, ha1⟩, ha2⟩ := hab
    obtain ⟨⟨⟨⟨hq2, hx1⟩, hx2⟩, _⟩, _⟩ := hbx
    exact ⟨⟨⟨⟨hq1.trans hq2, hx1⟩, hx2⟩, ha1⟩, ha2⟩
  · intro hout
    refine ⟨hfalse a b ?_, hfalse b a ?_, hfalse a a ?_⟩
    · rcases hout with h | h
      · exact Or.inl h
      · exact Or.inr (Or.inl h)
    · rcases hout with h | h
      · exact Or.inr (Or.inr (Or.inl h))
      · exact Or.inr (Or.inr (Or.inr h))
    · rcases hout with h | h
      · exact Or.inl h
      · exact Or.inr (Or.inl h)

/-- The chains of length `5` in `[0, 9]`: `2`, `3` and `4` are in one chain,
`12` is in range with no ID. -/
theorem isInRange_equivalence_witness :
    C2RIntraChains.isInRange ⟨0, 9, 5⟩ 2 2 = .ok true ∧
    C2RIntraChains.isInRange ⟨0, 9, 5⟩ 2 4 = .ok true ∧
    C2RIntraChains.isInRange ⟨0, 9, 5⟩ 12 12 = .ok false :=
  have h := isInRange_equivalence ⟨0, 9, 5⟩ 2 3 4 (by decide)
  have h12 := isInRange_equivalence ⟨0, 9, 5⟩ 12 3 4 (by decide)
  ⟨h.1 (by decide) (by decide), h.2.2.1 (by decide) (by decide),
    (h12.2.2.2 (Or.inr (by decide))).2.2⟩

/-! ## `CLCylinder::getEvent` -/

/-- C24: `getEvent` returns, for the given particle, an event of kind `WALL`
whose time is the value of `getCylinderWallCollision(part, vPosition, vNorm,
radius)`; when that value is `HUGE_VAL` the event is still `WALL`, not `NONE`. -/
theorem CLCylinder.getEvent_wall {σ K D : Type} (ops : SimOps σ K D) (self : CLCylinder K)
    (Sim : SimData σ K D) (part : Particle K) :
    self.getEvent ops Sim part
      = ⟨part.ID,
         ops.getCylinderWallCollision Sim.world part self.vPosition self.vNorm self.radius,
         .WALL, self.ID⟩ ∧
    (self.getEvent ops Sim part).CType = .WALL ∧
    (self.getEvent ops Sim part).CType ≠ .NONE ∧
    (self.getEvent ops Sim part).dt
      = ops.getCylinderWallCollision Sim.world part self.vPosition self.vNorm self.radius ∧
    (ops.getCylinderWallCollision Sim.world part self.vPosition self.vNorm self.radius
        = HUGE_VAL →
      (self.getEvent ops Sim part).dt = HUGE_VAL ∧ (self.getEvent ops Sim part).CType = .WALL) := by
  refine ⟨rfl, rfl, ?_, rfl, ?_⟩
  · simp [CLCylinder.getEvent]
  · intro h
    exact ⟨h, rfl⟩

/-! ## The pair diameter of `IHardSphere` and `checkOverlaps` -/

section OverlapProofs

variable {σ K D : Type} [LinearOrderedField K]

/-- C21: for particles in the domain of the diameter and elasticity
properties, with `d = (d(p1) + d(p2)) / 2`: `getEvent` calls
`SphereSphereInRoot` with `d`, `runEvent` calls `SmoothSpheresColl` with the
elasticity `(e(p1) + e(p2)) / 2` and with `d^2`, and `checkOverlaps` writes
its diagnostic exactly when `rij | rij < d^2`; `d`, `d^2` and the elasticity
do not change when the two particles are swapped. -/
theorem hardSphere_pair_diameter (unitLength : K) (ops : SimOps σ K D) (self : IHardSphere K)
    (Sim : SimData σ K D) (p1 p2 : Particle K) (iEvent : IntEvent K) (d1 d2 e1 e2 : K)
    (hd1 : self._diameter.getProperty p1.ID = some d1)
    (hd2 : self._diameter.getProperty p2.ID = some d2)
    (he1 : self._e.getProperty p1.ID = some e1)
    (he2 : self._e.getProperty p2.ID = some e2) :
    self.getEvent ops Sim p1 p2
      = .ok (if ops.SphereSphereInRoot Sim.world p1 p2 ((d1 + d2) / 2) ≠ HUGE_VAL
          then ⟨p1.ID, p2.ID, ops.SphereSphereInRoot Sim.world p1 p2 ((d1 + d2) / 2),
            .CORE, self.ID⟩
          else ⟨p1.ID, p2.ID, HUGE_VAL, .NONE, self.ID⟩) ∧
    (∃ S, self.runEvent ops Sim p1 p2 iEvent = .ok S ∧
      S.log = Sim.log ++ ([.countIncremented,
          .resolved (ops.SmoothSpheresColl Sim.world iEvent ((e1 + e2) / 2)
            (((d1 + d2) / 2) ^ 2)).1,
          .signalParticleUpdate (ops.SmoothSpheresColl Sim.world iEvent ((e1 + e2) / 2)
            (((d1 + d2) / 2) ^ 2)).1,
          .fullUpdate [p1.ID, p2.ID]]
        ++ Sim.outputPlugins.map (fun Ptr => Step.eventUpdate Ptr (.int iEvent)
          (ops.SmoothSpheresColl Sim.world iEvent ((e1 + e2) / 2)
            (((d1 + d2) / 2) ^ 2)).1))) ∧
    self.checkOverlaps unitLength ops Sim p1 p2
      = .ok (if (ops.applyBCPos Sim.world (p1.position.sub p2.position)).dot
              (ops.applyBCPos Sim.world (p1.position.sub p2.position)) < ((d1 + d2) / 2) ^ 2
          then some ⟨p1.ID, p2.ID,
            (ops.applyBCPos Sim.world (p1.position.sub p2.position)).dot
              (ops.applyBCPos Sim.world (p1.position.sub p2.position)) / unitLength ^ 2,
            ((d1 + d2) / 2) ^ 2 / unitLength ^ 2⟩
          else none) ∧
    self.pairDiameter p2.ID p1.ID = self.pairDiameter p1.ID p2.ID ∧
    (d2 + d1) / 2 = (d1 + d2) / 2 ∧
    ((d2 + d1) / 2) ^ 2 = ((d1 + d2) / 2) ^ 2 ∧
    (e2 + e1) / 2 = (e1 + e2) / 2 := by
  have hsq : (d1 + d2) / 2 * ((d1 + d2) / 2) = ((d1 + d2) / 2) ^ 2 := by ring
  refine ⟨?_, ?_, ?_, ?_, by ring, by ring, by ring⟩
  · unfold IHardSphere.getEvent
    rw [pairDiameter_of_some self _ _ d1 d2 hd1 hd2]
    simp only [bind, Except.bind, pure, Except.pure]
    split <;> rfl
  · obtain ⟨S, hS, hlog, _⟩ :=
      IHardSphere.hardSphere_runEvent_log ops self Sim p1 p2 iEvent d1 d2 e1 e2 hd1 hd2 he1 he2
    rw [hsq] at hlog
    exact ⟨S, hS, hlog⟩
  · unfold IHardSphere.checkOverlaps
    rw [pairDiameter_of_some self _ _ d1 d2 hd1 hd2]
    simp only [bind, Except.bind, pure, Except.pure, hsq]
    split <;> rfl
  · rw [pairDiameter_of_some self _ _ d1 d2 hd1 hd2,
      pairDiameter_of_some self _ _ d2 d1 hd2 hd1, add_comm]

/-- C22: when `checkOverlaps` writes its diagnostic for two cubes of diameter
`d > 0` with an orthonormal `Rotation`, the boundary-wrapped relative position
`rij` has `rij | rij < d * d`, and the cubes overlap: every component of
`Rotation * rij` has absolute value below `d`. -/
theorem cubes_checkOverlaps_sound (unitLength : K) (ops : SimOps σ K D)
    (self : IRotatedParallelCubes K) (Sim : SimData σ K D) (part1 part2 : Particle K)
    (hd : 0 < self.diameter) (hR : self.Rotation.Orthonormal)
    (hrep : self.checkOverlaps unitLength ops Sim part1 part2 ≠ none) :
    (ops.applyBCPos Sim.world (part1.position.sub part2.position)).dot
        (ops.applyBCPos Sim.world (part1.position.sub part2.position))
      < self.diameter * self.diameter ∧
    |(self.Rotation.mulVec
        (ops.applyBCPos Sim.world (part1.position.sub part2.position))).x| < self.diameter ∧
    |(self.Rotation.mulVec
        (ops.applyBCPos Sim.world (part1.position.sub part2.position))).y| < self.diameter ∧
    |(self.Rotation.mulVec
        (ops.applyBCPos Sim.world (part1.position.sub part2.position))).z| < self.diameter := by
  have hlt : (ops.applyBCPos Sim.world (part1.position.sub part2.position)).dot
        (ops.applyBCPos Sim.world (part1.position.sub part2.position))
      < self.diameter * self.diameter := by
    by_contra hge
    apply hrep
    unfold IRotatedParallelCubes.checkOverlaps
    simp only [if_neg hge]
  have hn := Matrix.Orthonormal.nrm2_mulVec self.Rotation hR
    (ops.applyBCPos Sim.world (part1.position.sub part2.position))
  simp only [Vector.nrm2] at hn
  rw [← hn] at hlt
  simp only [Vector.dot] at hlt
  have hcomp : ∀ t u v : K, t * t + u * u + v * v < self.diameter * self.diameter →
      |t| < self.diameter ∧ |u| < self.diameter ∧ |v| < self.diameter := by
    intro t u v h
    refine ⟨?_, ?_, ?_⟩ <;>
    · rw [abs_lt]
      constructor <;> nlinarith [mul_self_nonneg t, mul_self_nonneg u, mul_self_nonneg v]
  obtain ⟨hx, hy, hz⟩ := hcomp _ _ _ hlt
  refine ⟨?_, hx, hy, hz⟩
  rw [← hn]
  simp only [Vector.dot]
  exact hlt

end OverlapProofs

/-! ## What a loaded cylinder wall holds -/

/-- Particles `0` and `1` with diameters `1` and `3`, elasticities `1` and
`1/2`: the root finder is called with `d = 2`, the resolver with `e = 3/4`
and `d^2 = 4`. -/
theorem hardSphere_pair_diameter_witness :
    mixedHardSphere.getEvent echoOps echoSim demoP1 grazingP2
      = .ok ⟨0, 1, (((1 + 3) / 2 : ℚ) : WithTop ℚ), .CORE, 0⟩ ∧
    (∃ S, mixedHardSphere.runEvent echoOps echoSim demoP1 grazingP2 demoIntEvent = .ok S ∧
      S.log = [.countIncremented,
        .resolved ((1 + 1 / 2) / 2, ((1 + 3) / 2) ^ 2),
        .signalParticleUpdate ((1 + 1 / 2) / 2, ((1 + 3) / 2) ^ 2),
        .fullUpdate [0, 1]]) ∧
    ((3 : ℚ) + 1) / 2 = (1 + 3) / 2 :=
  have h := hardSphere_pair_diameter (1 : ℚ) echoOps mixedHardSphere echoSim demoP1 grazingP2
    demoIntEvent 1 3 1 (1 / 2) rfl rfl rfl rfl
  ⟨by
    rw [h.1]
    simp only [echoOps, HUGE_VAL, demoP1, grazingP2, mixedHardSphere]
    rw [if_pos (WithTop.coe_ne_top)], h.2.1, h.2.2.2.2.1⟩

/-- The cubes of diameter `2` with centres `(-1, 0, 0)` and the origin: the
diagnostic is written, and the rotated separation has all components below `2`. -/
theorem cubes_checkOverlaps_sound_witness :
    demoRotatedCubes.members.checkOverlaps 1 demoOps demoSim demoP1 cubeP2 ≠ none ∧
    |(demoRotatedCubes.members.Rotation.mulVec
        (demoOps.applyBCPos demoSim.world (demoP1.position.sub cubeP2.position))).y| < 2 :=
  have hrep : demoRotatedCubes.members.checkOverlaps 1 demoOps demoSim demoP1 cubeP2 ≠ none := by
    simp only [IRotatedParallelCubes.checkOverlaps, demoOps, demoP1, cubeP2, demoRotatedCubes,
      Vector.sub, Vector.dot]
    norm_num
    exact Option.some_ne_none _
  have h := cubes_checkOverlaps_sound 1 demoOps demoRotatedCubes.members demoSim demoP1 cubeP2
    (by simp [demoRotatedCubes])
    (by simp [Matrix.Orthonormal, Matrix.transpose, Matrix.mul, Matrix.identity,
      demoRotatedCubes])
    hrep
  ⟨hrep, h.2.2.1⟩

/-! ## `runEvent` with output plugins that throw -/

section ThrowingProofs

variable {σ K D : Type}

/-- When the plugins of `pre` return and the plugin `Ptr` after them throws,
the loop ends with that exception: the plugins of `pre` and `Ptr` have been
called, the plugins of `post` have not. -/
theorem forEachPluginThrowing_stops (upd : Nat → σ → Event K → D → Assigned σ) (ev : Event K)
    (EDat : D) (pre post : List Nat) (Ptr : Nat) (e : Err) (S : SimData σ K D)
    (hpre : ∀ P ∈ pre, ∀ w, (upd P w ev EDat).failure = none)
    (hthrow : ∀ w, (upd Ptr w ev EDat).failure = some e) :
    SimData.forEachPluginThrowing upd ev EDat (pre ++ Ptr :: post) S
      = ⟨{ S with
           world := (pre ++ [Ptr]).foldl (fun w P => (upd P w ev EDat).obj) S.world,
           log := S.log ++ (pre ++ [Ptr]).map (fun P => Step.eventUpdate P ev EDat) },
         some e⟩ := by
  induction pre generalizing S with
  | nil => simp [SimData.forEachPluginThrowing, hthrow]
  | cons P rest ih =>
    have h0 : (upd P S.world ev EDat).failure = none := hpre P (List.mem_cons_self _ _) _
    have hstep := ih { S with world := (upd P S.world ev EDat).obj,
                              log := S.log ++ [.eventUpdate P ev EDat] }
      (fun Q hQ w => hpre Q (List.mem_cons_of_mem _ hQ) w)
    simp only [List.cons_append, SimData.forEachPluginThrowing, h0]
    exact hstep.trans (by simp)

/-- With plugins that never throw the loop is the loop of `forEachPlugin`. -/
theorem forEachPluginThrowing_total (ops : SimOps σ K D) (ev : Event K) (EDat : D)
    (l : List Nat) (S : SimData σ K D) :
    SimData.forEachPluginThrowing (fun Ptr w ev d => ⟨ops.eventUpdate Ptr w ev d, none⟩)
        ev EDat l S
      = ⟨l.foldl (SimData.eventUpdate ops ev EDat) S, none⟩ := by
  induction l generalizing S with
  | nil => simp [SimData.forEachPluginThrowing]
  | cons Ptr rest ih =>
    simp only [SimData.forEachPluginThrowing, List.foldl_cons]
    rw [ih]
    rfl

/-- With plugins that never throw the three bodies are the `runEvent` bodies
over total collaborators. -/
theorem runEventThrowing_total [LinearOrderedField K] (ops : SimOps σ K D)
    (Sim : SimData σ K D) (hs : IHardSphere K) (cubes : IRotatedParallelCubes K)
    (cyl : CLCylinder K) (p1 p2 : Particle K) (iEvent : IntEvent K) (lEvent : LocalEvent K) :
    hs.runEventThrowing ops (fun Ptr w ev d => ⟨ops.eventUpdate Ptr w ev d, none⟩) Sim p1 p2
        iEvent
      = (hs.runEvent ops Sim p1 p2 iEvent).map (fun S => ⟨S, none⟩) ∧
    cubes.runEventThrowing ops (fun Ptr w ev d => ⟨ops.eventUpdate Ptr w ev d, none⟩) Sim p1 p2
        iEvent
      = ⟨cubes.runEvent ops Sim p1 p2 iEvent, none⟩ ∧
    cyl.runEventThrowing ops (fun Ptr w ev d => ⟨ops.eventUpdate Ptr w ev d, none⟩) Sim p1 lEvent
      = ⟨cyl.runEvent ops Sim p1 lEvent, none⟩ := by
  refine ⟨?_, ?_, ?_⟩
  · unfold IHardSphere.runEventThrowing IHardSphere.runEvent
    cases hs.pairDiameter p1.ID p2.ID with
    | error e => rfl
    | ok d =>
      cases hs._e.get p1.ID with
      | error e => rfl
      | ok e1 =>
        cases hs._e.get p2.ID with
        | error e => rfl
        | ok e2 =>
          simp only [bind, Except.bind, pure, Except.pure, Except.map, forEachPluginThrowing_total,
            SimData.forEachPlugin]
  · unfold IRotatedParallelCubes.runEventThrowing IRotatedParallelCubes.runEvent
    simp only [forEachPluginThrowing_total, SimData.forEachPlugin]
  · unfold CLCylinder.runEventThrowing CLCylinder.runEvent
    simp only [forEachPluginThrowing_total, SimData.forEachPlugin]

end ThrowingProofs

/-- C9 (counterexample to the claim as stated): the plugins `0` and `1` are
registered and the `eventUpdate` of plugin `0` throws.  The wall event ends
with that exception after the one call to plugin `0`; plugin `1` has received
no call. -/
theorem runEvent_observers_counterexample :
    recordSim.outputPlugins = [0, 1] ∧
    (demoCylinder.runEventThrowing recordOps firstPluginThrows recordSim demoP1
        demoLocalEvent).failure = some (.thrown "plugin 0") ∧
    eventUpdates (demoCylinder.runEventThrowing recordOps firstPluginThrows recordSim demoP1
        demoLocalEvent).obj.log = [(0, Event.loc demoLocalEvent, 7)] ∧
    (demoCylinder.runEventThrowing recordOps firstPluginThrows recordSim demoP1
        demoLocalEvent).obj.world = [(0, 7)] ∧
    (∀ c ∈ eventUpdates (demoCylinder.runEventThrowing recordOps firstPluginThrows recordSim
        demoP1 demoLocalEvent).obj.log, c.1 ≠ 1) :=
  ⟨rfl, rfl, rfl, rfl, by
    intro c hc
    have h : eventUpdates (demoCylinder.runEventThrowing recordOps firstPluginThrows recordSim
        demoP1 demoLocalEvent).obj.log = [(0, Event.loc demoLocalEvent, 7)] := rfl
    rw [h, List.mem_singleton] at hc
    rw [hc]
    decide⟩

end DynamO
